import Mathlib

/-!
Verification of the llocg-backend-api card catalog core.

The Rust source is shallowly embedded: sqlx tables become association
lists inside an explicit `Db` state, `i64` row ids become `Nat`, `i64`
counts become `Int`, and fallible sqlx calls become `Except`.  Each
definition mirrors one function of `src/db.rs`, `src/models.rs` or the
handler modules; theorems at the end settle the specification claims.
-/

set_option autoImplicit false

namespace LLOCG

/-! ## Enums from `src/models.rs` -/

inductive CardType where
  | Character
  | Live
  | Energy
deriving DecidableEq, Repr

inductive RarityType where
  | Regular
  | Parallel
deriving DecidableEq, Repr

inductive HeartColor where
  | Pink | Red | Yellow | Green | Blue | Purple | Gray
deriving DecidableEq, Repr

inductive BladeHeartColor where
  | Pink | Red | Yellow | Green | Blue | Purple | All
deriving DecidableEq, Repr

inductive SpecialHeart where
  | Draw | Score
deriving DecidableEq, Repr

/-! ## The identifier parser of `CreateCard::deserialize` (`src/models.rs`)

Rust splits the compound identifier with `rsplitn(2, '-')` (two parts,
from the right) and then `splitn(3, '-')` (three parts, from the left).
We model both on `List Char`.
-/

/-- Split a character list at the first occurrence of `sep`: returns the
part before and the part after, or `none` when `sep` does not occur. -/
def splitAtFirst (sep : Char) : List Char → Option (List Char × List Char)
  | [] => none
  | c :: cs =>
    if c = sep then some ([], cs)
    else (splitAtFirst sep cs).map (fun p => (c :: p.1, p.2))

/-- `rsplitn(2, sep)` as used in the deserializer: split at the last
occurrence of `sep`, returning `(before, after)`; `none` when `sep` is
absent (Rust then yields a single part, failing the length-2 check). -/
def rsplitLast (sep : Char) (l : List Char) : Option (List Char × List Char) :=
  (splitAtFirst sep l.reverse).map (fun p => (p.2.reverse, p.1.reverse))

/-- Error message of the deserializer for a malformed `card_identifier`. -/
def identifierFormatMsg : String :=
  "field `card_identifier` must be in the format \x27series-set-number-rarity\x27."

/-- The identifier parsing step of `CreateCard::deserialize`, on the
character list: `rsplitn(2, '-')` must give exactly two parts
`(prefix, rarity_code)`, then `splitn(3, '-')` on the prefix must give
exactly three parts `(series_code, set_code, number_in_set)`. -/
def parseIdParts (l : List Char) :
    Except String (String × String × String × String) :=
  match rsplitLast '-' l with
  | none => .error identifierFormatMsg
  | some (base, rarity) =>
    match splitAtFirst '-' base with
    | none => .error identifierFormatMsg
    | some (series, rest) =>
      match splitAtFirst '-' rest with
      | none => .error identifierFormatMsg
      | some (setCode, number) =>
        .ok (⟨series⟩, ⟨setCode⟩, ⟨number⟩, ⟨rarity⟩)

/-- Identifier parsing of `CreateCard::deserialize` on the input string. -/
def parseCardIdentifier (s : String) :
    Except String (String × String × String × String) :=
  parseIdParts s.data

/-! ## Table rows (`src/models.rs` structs as stored by `src/db.rs`)

Row ids generated by SQLite (`last_insert_rowid`) are modelled as `Nat`
counters in the `Db` state; `i64` data columns are `Int`.
-/

/-- A row of the `cards` table as read back by `fetch_full_card`
(columns inserted by `create_full_card_with_tx`). -/
structure Card where
  id : Nat
  seriesCode : String
  setCode : String
  numberInSet : String
  nameId : Nat
  cardType : CardType
deriving DecidableEq, Repr

/-- A row of the `printings` table. -/
structure Printing where
  id : Nat
  cardId : Nat
  rarityCode : String
  rarityType : RarityType
  imageUrl : Option String
deriving DecidableEq, Repr

/-- A row of the `card_hearts` table. -/
structure CardHeart where
  cardId : Nat
  color : HeartColor
  count : Int
deriving DecidableEq, Repr

/-- A row of the `character_cards` table. -/
structure CharacterCard where
  cardId : Nat
  cost : Int
  blades : Int
  bladeHeart : Option BladeHeartColor
deriving DecidableEq, Repr

/-- A row of the `live_cards` table. -/
structure LiveCard where
  cardId : Nat
  score : Int
  bladeHeart : Option BladeHeartColor
  specialHeart : Option SpecialHeart
deriving DecidableEq, Repr

/-- Type-specific data of an assembled card (`CardTypeSpecifics`). -/
inductive CardTypeSpecifics where
  | Character : CharacterCard → CardTypeSpecifics
  | Live : LiveCard → CardTypeSpecifics
deriving DecidableEq, Repr

/-- The flattened base fields of a `FullCard` (`BaseCard` in `src/db.rs`),
with the canonical name resolved in place of `name_id`. -/
structure BaseCard where
  id : Nat
  seriesCode : String
  setCode : String
  numberInSet : String
  name : String
  cardType : CardType
deriving DecidableEq, Repr

/-- The aggregate returned by the Full-Card Reader (`FullCard`).
The `hearts` HashMap is modelled as an association list. -/
structure FullCard where
  base : BaseCard
  setName : String
  groups : List String
  units : List String
  skills : List String
  hearts : List (HeartColor × Int)
  printings : List Printing
  typeSpecifics : Option CardTypeSpecifics
deriving DecidableEq, Repr

/-! ## Creation payloads (`src/models.rs`) -/

/-- `CreateCharacterCard`: specifics of a Character creation payload. -/
structure CreateCharacterCard where
  cost : Int
  blades : Int
  hearts : List (HeartColor × Int)
  bladeHeart : Option BladeHeartColor
deriving DecidableEq, Repr

/-- `CreateLiveCard`: specifics of a Live creation payload. -/
structure CreateLiveCard where
  score : Int
  hearts : List (HeartColor × Int)
  bladeHeart : Option BladeHeartColor
  specialHeart : Option SpecialHeart
deriving DecidableEq, Repr

/-- `CreateCardTypeSpecifics`: the untagged specifics union. -/
inductive CreateCardTypeSpecifics where
  | Character : CreateCharacterCard → CreateCardTypeSpecifics
  | Live : CreateLiveCard → CreateCardTypeSpecifics
deriving DecidableEq, Repr

/-- The fully parsed `CreateCard` payload, with the identifier already
split into its four components by the custom deserializer. -/
structure CreateCard where
  name : String
  cardType : CardType
  groups : List String
  units : List String
  skills : List String
  imageUrl : Option String
  typeSpecifics : Option CreateCardTypeSpecifics
  seriesCode : String
  setCode : String
  numberInSet : String
  rarityCode : String
deriving DecidableEq, Repr

/-- The intermediate `Helper` struct of `CreateCard::deserialize`: the
payload fields as they arrive in JSON, before identifier parsing and
the card-type/specifics consistency check. -/
structure Helper where
  cardIdentifier : String
  name : String
  cardType : CardType
  groups : List String
  units : List String
  skills : List String
  imageUrl : Option String
  typeSpecifics : Option CreateCardTypeSpecifics
deriving DecidableEq, Repr

/-- Error message for empty or missing hearts on Character/Live payloads. -/
def heartsRequiredMsg : String :=
  "`hearts` field is required and must not be empty for Character and Live cards."

/-- Error message for a card type/specifics mismatch. -/
def specificsMismatchMsg : String :=
  "Mismatch between `card_type` and the data provided in `type_specifics`."

/-- `CreateCard::deserialize` after the `Helper` struct has been read:
parse the identifier, then check `card_type` against `type_specifics`
exactly as the Rust `match` with its guards does. -/
def deserializeCreateCard (h : Helper) : Except String CreateCard :=
  match parseCardIdentifier h.cardIdentifier with
  | .error e => .error e
  | .ok (seriesCode, setCode, numberInSet, rarityCode) =>
    match h.cardType, h.typeSpecifics with
    | .Character, some (.Character c) =>
      if c.hearts.isEmpty then .error heartsRequiredMsg
      else .ok ⟨h.name, h.cardType, h.groups, h.units, h.skills, h.imageUrl,
        h.typeSpecifics, seriesCode, setCode, numberInSet, rarityCode⟩
    | .Live, some (.Live l) =>
      if l.hearts.isEmpty then .error heartsRequiredMsg
      else .ok ⟨h.name, h.cardType, h.groups, h.units, h.skills, h.imageUrl,
        h.typeSpecifics, seriesCode, setCode, numberInSet, rarityCode⟩
    | .Energy, none =>
      .ok ⟨h.name, h.cardType, h.groups, h.units, h.skills, h.imageUrl,
        h.typeSpecifics, seriesCode, setCode, numberInSet, rarityCode⟩
    | .Character, _ => .error heartsRequiredMsg
    | .Live, _ => .error heartsRequiredMsg
    | .Energy, some _ => .error specificsMismatchMsg

/-- Spec-side characterization of the accepted card-type/specifics
combinations: Character specifics with non-empty hearts for a Character
payload, Live specifics with non-empty hearts for a Live payload, and
no specifics for an Energy payload. -/
def specificsConsistent : CardType → Option CreateCardTypeSpecifics → Bool
  | .Character, some (.Character c) => !c.hearts.isEmpty
  | .Live, some (.Live l) => !l.hearts.isEmpty
  | .Energy, none => true
  | _, _ => false

/-! ## The database state

Each SQLite table is an association list in insertion (rowid) order;
`next*Id` counters model autoincremented rowids.
-/

/-- The relational store: all tables touched by the card core. -/
structure Db where
  names : List (Nat × String)
  sets : List (String × String)
  groups : List (Nat × String)
  units : List (Nat × String)
  skills : List (Nat × String)
  cards : List Card
  characterCards : List CharacterCard
  liveCards : List LiveCard
  printings : List Printing
  cardHearts : List CardHeart
  cardGroups : List (Nat × Nat)
  cardUnits : List (Nat × Nat)
  cardSkills : List (Nat × Nat)
  nextNameId : Nat
  nextCardId : Nat
  nextSkillId : Nat
  nextPrintingId : Nat
deriving DecidableEq, Repr

/-- The empty database. -/
def Db.empty : Db := ⟨[], [], [], [], [], [], [], [], [], [], [], [], [], 1, 1, 1, 1⟩

/-- sqlx errors as distinguished by this code base: `RowNotFound` from a
`fetch_one` on zero rows, and everything else opaque. -/
inductive SqlxError where
  | rowNotFound
  | other
deriving DecidableEq, Repr

/-- `DbError` from `src/db.rs`. -/
inductive DbError where
  | groupNotFound : String → DbError
  | unitNotFound : String → DbError
  | sqlx : SqlxError → DbError
deriving DecidableEq, Repr

/-! ## Full-Card Reader (`fetch_full_card` and helpers, `src/db.rs`) -/

/-- `fetch_name_for_card`: `SELECT name FROM names WHERE id = ?`, `fetch_one`. -/
def fetchNameForCard (db : Db) (nameId : Nat) : Except SqlxError String :=
  match db.names.find? (fun r => r.1 = nameId) with
  | some r => .ok r.2
  | none => .error .rowNotFound

/-- `fetch_set_name`: `SELECT name FROM sets WHERE set_code = ?`, `fetch_one`. -/
def fetchSetName (db : Db) (setCode : String) : Except SqlxError String :=
  match db.sets.find? (fun r => r.1 = setCode) with
  | some r => .ok r.2
  | none => .error .rowNotFound

/-- `fetch_groups_for_card`: join of `card_groups` with `groups`. -/
def fetchGroupsForCard (db : Db) (cardId : Nat) : List String :=
  (db.cardGroups.filter (fun r => r.1 = cardId)).filterMap
    (fun r => (db.groups.find? (fun g => g.1 = r.2)).map (fun g => g.2))

/-- `fetch_units_for_card`: join of `card_units` with `units`. -/
def fetchUnitsForCard (db : Db) (cardId : Nat) : List String :=
  (db.cardUnits.filter (fun r => r.1 = cardId)).filterMap
    (fun r => (db.units.find? (fun u => u.1 = r.2)).map (fun u => u.2))

/-- `fetch_skills_for_card`: join of `card_skills` with `skills`. -/
def fetchSkillsForCard (db : Db) (cardId : Nat) : List String :=
  (db.cardSkills.filter (fun r => r.1 = cardId)).filterMap
    (fun r => (db.skills.find? (fun s => s.1 = r.2)).map (fun s => s.2))

/-- `fetch_hearts_for_card`: `SELECT color, count FROM card_hearts`. -/
def fetchHeartsForCard (db : Db) (cardId : Nat) : List (HeartColor × Int) :=
  (db.cardHearts.filter (fun r => r.cardId = cardId)).map
    (fun r => (r.color, r.count))

/-- `fetch_printings_for_card`: `SELECT * FROM printings WHERE card_id = ?`. -/
def fetchPrintingsForCard (db : Db) (cardId : Nat) : List Printing :=
  db.printings.filter (fun r => r.cardId = cardId)

/-- `fetch_type_specifics`: `fetch_optional` on the table matching the
card type; always `None` for Energy. -/
def fetchTypeSpecifics (db : Db) (cardId : Nat) :
    CardType → Option CardTypeSpecifics
  | .Character =>
    (db.characterCards.find? (fun r => r.cardId = cardId)).map .Character
  | .Live => (db.liveCards.find? (fun r => r.cardId = cardId)).map .Live
  | .Energy => none

/-- `fetch_full_card`: read the base card row (`fetch_one`), fan out the
remaining reads, and assemble the aggregate; the first failure aborts. -/
def fetchFullCard (db : Db) (cardId : Nat) : Except SqlxError FullCard :=
  match db.cards.find? (fun r => r.id = cardId) with
  | none => .error .rowNotFound
  | some card =>
    match fetchNameForCard db card.nameId with
    | .error e => .error e
    | .ok name =>
      match fetchSetName db card.setCode with
      | .error e => .error e
      | .ok setName =>
        .ok ⟨⟨card.id, card.seriesCode, card.setCode, card.numberInSet,
            name, card.cardType⟩,
          setName,
          fetchGroupsForCard db cardId,
          fetchUnitsForCard db cardId,
          fetchSkillsForCard db cardId,
          fetchHeartsForCard db cardId,
          fetchPrintingsForCard db cardId,
          fetchTypeSpecifics db cardId card.cardType⟩

/-! ## Cache lookups used during creation (`src/db.rs` steps 1a/1b/5) -/

/-- Rarity resolution: `rarity_cache.get(code).cloned().unwrap_or(Regular)`. -/
def rarityLookup (cache : List (String × RarityType)) (code : String) :
    RarityType :=
  ((cache.find? (fun r => r.1 = code)).map (fun r => r.2)).getD .Regular

/-- Variant canonicalization for card names and group names:
`cache.get(s).cloned().unwrap_or_else(|| s.clone())`. -/
def canonicalLookup (cache : List (String × String)) (s : String) : String :=
  ((cache.find? (fun r => r.1 = s)).map (fun r => r.2)).getD s

/-! ## Card Creation Unit of Work (`create_full_card_with_tx`) -/

/-- Step 1c, first half: `INSERT INTO names (name) VALUES (?)
ON CONFLICT(name) DO NOTHING`. -/
def upsertName (db : Db) (n : String) : Db :=
  if (db.names.find? (fun r => r.2 = n)).isSome then db
  else { db with
    names := db.names ++ [(db.nextNameId, n)]
    nextNameId := db.nextNameId + 1 }

/-- Step 1c, second half: `SELECT id FROM names WHERE name = ?`, `fetch_one`. -/
def lookupNameId (db : Db) (n : String) : Except SqlxError Nat :=
  match db.names.find? (fun r => r.2 = n) with
  | some r => .ok r.1
  | none => .error .rowNotFound

/-- Step 2: insert the type-specifics row matching the payload, if any. -/
def insertSpecifics (cardId : Nat) :
    Option CreateCardTypeSpecifics → Db → Db
  | some (.Character c), db =>
    { db with characterCards :=
        db.characterCards ++ [⟨cardId, c.cost, c.blades, c.bladeHeart⟩] }
  | some (.Live l), db =>
    { db with liveCards :=
        db.liveCards ++ [⟨cardId, l.score, l.bladeHeart, l.specialHeart⟩] }
  | none, db => db

/-- The hearts map carried by the payload specifics (step 4 reads it
from whichever variant is present; no hearts for Energy). -/
def heartsOf : Option CreateCardTypeSpecifics → List (HeartColor × Int)
  | some (.Character c) => c.hearts
  | some (.Live l) => l.hearts
  | none => []

/-- Step 4: one `INSERT INTO card_hearts` per color/count pair. -/
def insertHearts (cardId : Nat) : List (HeartColor × Int) → Db → Db
  | [], db => db
  | (color, count) :: rest, db =>
    insertHearts cardId rest
      { db with cardHearts := db.cardHearts ++ [⟨cardId, color, count⟩] }

/-- `SELECT id FROM groups WHERE name = ?` as an optional id. -/
def groupIdOf (db : Db) (n : String) : Option Nat :=
  (db.groups.find? (fun g => g.2 = n)).map (fun g => g.1)

/-- `SELECT id FROM units WHERE name = ?` as an optional id. -/
def unitIdOf (db : Db) (n : String) : Option Nat :=
  (db.units.find? (fun u => u.2 = n)).map (fun u => u.1)

/-- Step 5: canonicalize each group name, look the group up (failing the
unit of work with `GroupNotFound` on a missing row) and link it. -/
def linkGroups (gvc : List (String × String)) (cardId : Nat) :
    List String → Db → Except DbError Db
  | [], db => .ok db
  | g :: rest, db =>
    let canonical := canonicalLookup gvc g
    match groupIdOf db canonical with
    | none => .error (.groupNotFound canonical)
    | some gid =>
      linkGroups gvc cardId rest
        { db with cardGroups := db.cardGroups ++ [(cardId, gid)] }

/-- Step 6: look each unit up (failing with `UnitNotFound` on a missing
row) and link it. -/
def linkUnits (cardId : Nat) : List String → Db → Except DbError Db
  | [], db => .ok db
  | u :: rest, db =>
    match unitIdOf db u with
    | none => .error (.unitNotFound u)
    | some uid =>
      linkUnits cardId rest
        { db with cardUnits := db.cardUnits ++ [(cardId, uid)] }

/-- Step 7: get-or-create each skill row, then link it. -/
def linkSkills (cardId : Nat) : List String → Db → Except DbError Db
  | [], db => .ok db
  | t :: rest, db =>
    let db1 :=
      if (db.skills.find? (fun s => s.2 = t)).isSome then db
      else { db with
        skills := db.skills ++ [(db.nextSkillId, t)]
        nextSkillId := db.nextSkillId + 1 }
    match db1.skills.find? (fun s => s.2 = t) with
    | none => .error (.sqlx .rowNotFound)
    | some s =>
      linkSkills cardId rest
        { db1 with cardSkills := db1.cardSkills ++ [(cardId, s.1)] }

/-- Steps 1d–4 of `create_full_card_with_tx`: insert the base card row,
the type-specifics row, the single printing and the heart rows. -/
def stageInserts (rc : List (String × RarityType)) (c : CreateCard)
    (nameId cardId : Nat) (db1 : Db) : Db :=
  let db2 := { db1 with
    cards := db1.cards ++
      [⟨cardId, c.seriesCode, c.setCode, c.numberInSet, nameId, c.cardType⟩]
    nextCardId := db1.nextCardId + 1 }
  let db3 := insertSpecifics cardId c.typeSpecifics db2
  let db4 := { db3 with
    printings := db3.printings ++
      [⟨db3.nextPrintingId, cardId, c.rarityCode,
        rarityLookup rc c.rarityCode, c.imageUrl⟩]
    nextPrintingId := db3.nextPrintingId + 1 }
  insertHearts cardId (heartsOf c.typeSpecifics) db4

/-- `create_full_card_with_tx`: the full insert sequence on the
transaction state, returning the new card id. -/
def createFullCardWithTx (rc : List (String × RarityType))
    (nvc gvc : List (String × String)) (c : CreateCard) (db : Db) :
    Except DbError (Nat × Db) :=
  let canonicalName := canonicalLookup nvc c.name
  let db1 := upsertName db canonicalName
  match lookupNameId db1 canonicalName with
  | .error e => .error (.sqlx e)
  | .ok nameId =>
    let cardId := db1.nextCardId
    let db5 := stageInserts rc c nameId cardId db1
    match linkGroups gvc cardId c.groups db5 with
    | .error e => .error e
    | .ok db6 =>
      match linkUnits cardId c.units db6 with
      | .error e => .error e
      | .ok db7 =>
        match linkSkills cardId c.skills db7 with
        | .error e => .error e
        | .ok db8 => .ok (cardId, db8)

/-- `create_full_card`: run the unit of work in a fresh transaction,
commit (`commitOk` models whether the commit itself succeeds), then
fetch the created card outside the transaction.  On any failure before
a successful commit the returned state is the unchanged original
database (the dropped transaction rolls back). -/
def createFullCard (rc : List (String × RarityType))
    (nvc gvc : List (String × String)) (c : CreateCard) (commitOk : Bool)
    (db : Db) : Except DbError FullCard × Db :=
  match createFullCardWithTx rc nvc gvc c db with
  | .error e => (.error e, db)
  | .ok (cardId, db') =>
    if commitOk then
      match fetchFullCard db' cardId with
      | .ok fc => (.ok fc, db')
      | .error e => (.error (.sqlx e), db')
    else (.error (.sqlx .other), db)

/-! ## Bulk Creation Orchestrator (`create_bulk_cards`) -/

/-- The per-payload loop of `create_bulk_cards`: every payload's unit of
work runs on the same transaction state; the first error aborts. -/
def createBulkWithTx (rc : List (String × RarityType))
    (nvc gvc : List (String × String)) :
    List CreateCard → Db → Except DbError (List Nat × Db)
  | [], db => .ok ([], db)
  | c :: rest, db =>
    match createFullCardWithTx rc nvc gvc c db with
    | .error e => .error e
    | .ok (cardId, db') =>
      match createBulkWithTx rc nvc gvc rest db' with
      | .error e => .error e
      | .ok (ids, db'') => .ok (cardId :: ids, db'')

/-- The post-commit fetch loop of `create_bulk_cards`. -/
def fetchFullCards (db : Db) : List Nat → Except SqlxError (List FullCard)
  | [] => .ok []
  | cardId :: rest =>
    match fetchFullCard db cardId with
    | .error e => .error e
    | .ok fc =>
      match fetchFullCards db rest with
      | .error e => .error e
      | .ok l => .ok (fc :: l)

/-- `create_bulk_cards`: one shared transaction for the whole batch,
a single commit, then one fetch per created id. -/
def createBulkCards (rc : List (String × RarityType))
    (nvc gvc : List (String × String)) (cs : List CreateCard)
    (commitOk : Bool) (db : Db) : Except DbError (List FullCard) × Db :=
  match createBulkWithTx rc nvc gvc cs db with
  | .error e => (.error e, db)
  | .ok (ids, db') =>
    if commitOk then
      match fetchFullCards db' ids with
      | .ok l => (.ok l, db')
      | .error e => (.error (.sqlx e), db')
    else (.error (.sqlx .other), db)

/-! ## Card handlers (`src/handlers/cards.rs`) -/

/-- Body of the 404 response of `get_by_id`. -/
def cardNotFoundMsg : String := "Card not found"

/-- Rendering of an opaque sqlx error for a 500 response. -/
def sqlxErrorMessage : SqlxError → String
  | .rowNotFound => "no rows returned by a query that expected to return at least one row"
  | .other => "database error"

/-- `get_by_id`: `RowNotFound` becomes a 404 `"Card not found"`, any
other failure a 500. -/
def getCardById (db : Db) (cardId : Nat) : Except (Nat × String) FullCard :=
  match fetchFullCard db cardId with
  | .ok fc => .ok fc
  | .error .rowNotFound => .error (404, cardNotFoundMsg)
  | .error e => .error (500, sqlxErrorMessage e)

/-- Errors surfaced by the creation pipeline: a payload rejected by the
`CreateCard` deserializer (at the transport boundary, before any
database work), or a database error from the unit of work. -/
inductive CreateError where
  | validation : String → CreateError
  | db : DbError → CreateError
deriving DecidableEq, Repr

/-- The `create` handler pipeline: the axum `Json` extractor runs
`CreateCard::deserialize` before the handler body, so a rejected
payload never reaches `create_full_card`. -/
def handleCreateCard (rc : List (String × RarityType))
    (nvc gvc : List (String × String)) (h : Helper) (commitOk : Bool)
    (db : Db) : Except CreateError FullCard × Db :=
  match deserializeCreateCard h with
  | .error msg => (.error (.validation msg), db)
  | .ok c =>
    match createFullCard rc nvc gvc c commitOk db with
    | (.error e, db') => (.error (.db e), db')
    | (.ok fc, db') => (.ok fc, db')

/-- Deserialization of a `Vec<CreateCard>` body: the whole request is
rejected if any element is. -/
def deserializeAll : List Helper → Except String (List CreateCard)
  | [] => .ok []
  | h :: rest =>
    match deserializeCreateCard h with
    | .error e => .error e
    | .ok c =>
      match deserializeAll rest with
      | .error e => .error e
      | .ok cs => .ok (c :: cs)

/-- The `create_bulk` handler pipeline. -/
def handleCreateBulk (rc : List (String × RarityType))
    (nvc gvc : List (String × String)) (hs : List Helper) (commitOk : Bool)
    (db : Db) : Except CreateError (List FullCard) × Db :=
  match deserializeAll hs with
  | .error msg => (.error (.validation msg), db)
  | .ok cs =>
    match createBulkCards rc nvc gvc cs commitOk db with
    | (.error e, db') => (.error (.db e), db')
    | (.ok l, db') => (.ok l, db')

/-! ## Cache-layer upsert handlers

(`src/handlers/rarities.rs`, `name_variants.rs`, `variants/group_variants.rs`.)
The reference tables carrying a uniqueness constraint are modelled as
association lists whose insert reports a unique violation exactly when
the key is already present.
-/

/-- `CreateRarity` payload. -/
structure CreateRarity where
  rarityCode : String
  rarityType : RarityType
deriving DecidableEq, Repr

/-- Conflict message of the rarity `add` handler. -/
def rarityExistsMsg (code : String) : String :=
  "Rarity \x27" ++ code ++ "\x27 already exists."

/-- Conflict message of the name-variant `add` handler. -/
def nameVariantExistsMsg (variant : String) : String :=
  "Variant name \x27" ++ variant ++ "\x27 already exists."

/-- Conflict message of the group-variant `add` handler. -/
def groupVariantExistsMsg (variant : String) : String :=
  "Group variant name \x27" ++ variant ++ "\x27 already exists."

/-- `rarities::get_by_code`: cache lookup defaulting to `Regular`. -/
def raritiesGetByCode (cache : List (String × RarityType)) (code : String) :
    RarityType :=
  rarityLookup cache code

/-- `rarities::add` under the write lock: optimistic cache check, then
the storage insert; the cache is updated only after the insert
succeeds, and is left untouched (no reload) on a conflict.  Returns
(result, cache after, storage after). -/
def raritiesAdd (cache storage : List (String × RarityType))
    (p : CreateRarity) :
    Except (Nat × String) Nat ×
      List (String × RarityType) × List (String × RarityType) :=
  if (cache.find? (fun r => r.1 = p.rarityCode)).isSome then
    (.error (409, rarityExistsMsg p.rarityCode), cache, storage)
  else if (storage.find? (fun r => r.1 = p.rarityCode)).isSome then
    (.error (409, rarityExistsMsg p.rarityCode), cache, storage)
  else
    (.ok 201, cache ++ [(p.rarityCode, p.rarityType)],
      storage ++ [(p.rarityCode, p.rarityType)])

/-- `name_variants::add`: same shape over `variant_name → canonical_name`. -/
def nameVariantsAdd (cache storage : List (String × String))
    (variantName canonicalName : String) :
    Except (Nat × String) Nat ×
      List (String × String) × List (String × String) :=
  if (cache.find? (fun r => r.1 = variantName)).isSome then
    (.error (409, nameVariantExistsMsg variantName), cache, storage)
  else if (storage.find? (fun r => r.1 = variantName)).isSome then
    (.error (409, nameVariantExistsMsg variantName), cache, storage)
  else
    (.ok 201, cache ++ [(variantName, canonicalName)],
      storage ++ [(variantName, canonicalName)])

/-- `group_variants::add`: same shape again. -/
def groupVariantsAdd (cache storage : List (String × String))
    (variantName canonicalName : String) :
    Except (Nat × String) Nat ×
      List (String × String) × List (String × String) :=
  if (cache.find? (fun r => r.1 = variantName)).isSome then
    (.error (409, groupVariantExistsMsg variantName), cache, storage)
  else if (storage.find? (fun r => r.1 = variantName)).isSome then
    (.error (409, groupVariantExistsMsg variantName), cache, storage)
  else
    (.ok 201, cache ++ [(variantName, canonicalName)],
      storage ++ [(variantName, canonicalName)])

/-- Loading a cache from storage at startup (`create_app_state_with_pool`
collects the table into the in-memory map). -/
def loadCache {α : Type} (storage : List (String × α)) : List (String × α) :=
  storage

/-! ## Database well-formedness

Invariants SQLite maintains for the real store: autoincrement counters
are strictly above every existing rowid and reference-table ids are
unique.
-/

/-- Well-formedness of a `Db` state. -/
def Db.wf (db : Db) : Prop :=
  (∀ r ∈ db.names, r.1 < db.nextNameId) ∧
  (db.names.map Prod.fst).Nodup ∧
  (db.groups.map Prod.fst).Nodup ∧
  (db.units.map Prod.fst).Nodup ∧
  (∀ s ∈ db.skills, s.1 < db.nextSkillId) ∧
  (db.skills.map Prod.fst).Nodup ∧
  (∀ c ∈ db.cards, c.id < db.nextCardId) ∧
  (∀ r ∈ db.characterCards, r.cardId < db.nextCardId) ∧
  (∀ r ∈ db.liveCards, r.cardId < db.nextCardId) ∧
  (∀ r ∈ db.printings, r.cardId < db.nextCardId) ∧
  (∀ r ∈ db.cardHearts, r.cardId < db.nextCardId) ∧
  (∀ r ∈ db.cardGroups, r.1 < db.nextCardId) ∧
  (∀ r ∈ db.cardUnits, r.1 < db.nextCardId) ∧
  (∀ r ∈ db.cardSkills, r.1 < db.nextCardId) ∧
  (∀ r ∈ db.cardSkills, r.2 < db.nextSkillId)

instance (db : Db) : Decidable db.wf := by
  unfold Db.wf
  infer_instance

/-- No row of any card-owned table mentions the given card id. -/
def noRowsFor (db : Db) (cardId : Nat) : Prop :=
  (∀ c ∈ db.cards, c.id ≠ cardId) ∧
  (∀ r ∈ db.characterCards, r.cardId ≠ cardId) ∧
  (∀ r ∈ db.liveCards, r.cardId ≠ cardId) ∧
  (∀ r ∈ db.printings, r.cardId ≠ cardId) ∧
  (∀ r ∈ db.cardHearts, r.cardId ≠ cardId) ∧
  (∀ r ∈ db.cardGroups, r.1 ≠ cardId) ∧
  (∀ r ∈ db.cardUnits, r.1 ≠ cardId) ∧
  (∀ r ∈ db.cardSkills, r.1 ≠ cardId)

instance (db : Db) (cardId : Nat) : Decidable (noRowsFor db cardId) := by
  unfold noRowsFor
  infer_instance

/-- An Energy payload touching no reference tables, for witnesses. -/
def energyPayload : CreateCard :=
  ⟨"Kanon", .Energy, [], [], [], none, none, "PL!SP", "bp1", "001", "SEC"⟩

/-- The database state produced by creating `energyPayload` in an empty
database with empty caches. -/
def energyDb : Db :=
  match createFullCardWithTx [] [] [] energyPayload Db.empty with
  | .ok (_, d) => d
  | .error _ => Db.empty

/-- A database holding one card whose `set_code` has no row in `sets`:
reachable because card creation never validates the set code. -/
def orphanSetDb : Db :=
  { Db.empty with
    cards := [⟨1, "PL!SP", "bp9", "001", 1, .Energy⟩]
    names := [(1, "Kanon")]
    nextCardId := 2
    nextNameId := 2 }

/-- A Character creation payload carrying a negative heart count, as the
deserializer receives it. -/
def negHeartsHelper : Helper :=
  ⟨"PL!SP-bp1-001-R", "Kanon", .Character, [], [], [], none,
    some (.Character ⟨9, 3, [(.Red, -1)], none⟩)⟩

/-- The parsed form of `negHeartsHelper`. -/
def negHeartsPayload : CreateCard :=
  ⟨"Kanon", .Character, [], [], [], none,
    some (.Character ⟨9, 3, [(.Red, -1)], none⟩), "PL!SP", "bp1", "001", "R"⟩

/-- The database state produced by creating `negHeartsPayload`. -/
def negHeartsDb : Db :=
  match createFullCardWithTx [] [] [] negHeartsPayload Db.empty with
  | .ok (_, d) => d
  | .error _ => Db.empty

/-- A Character payload with non-negative hearts, for the C9 witness. -/
def posHeartsPayload : CreateCard :=
  ⟨"Kanon", .Character, [], [], [], none,
    some (.Character ⟨9, 3, [(.Red, 2), (.Yellow, 1)], none⟩),
    "PL!SP", "bp1", "001", "R"⟩

/-- The database state produced by creating `posHeartsPayload`. -/
def posHeartsDb : Db :=
  match createFullCardWithTx [] [] [] posHeartsPayload Db.empty with
  | .ok (_, d) => d
  | .error _ => Db.empty

/-- A payload referencing the nonexistent group `"Nonexistent Group"`. -/
def missingGroupPayload : CreateCard :=
  ⟨"K", .Energy, ["Nonexistent Group"], [], [], none, none,
    "PL!SP", "bp1", "002", "R"⟩

/-- The fetched type-specifics row agrees with the creation payload's
type-specifics fields. -/
def specificsMatch :
    Option CardTypeSpecifics → Option CreateCardTypeSpecifics → Prop
  | some (.Character r), some (.Character ch) =>
    r.cost = ch.cost ∧ r.blades = ch.blades ∧ r.bladeHeart = ch.bladeHeart
  | some (.Live r), some (.Live l) =>
    r.score = l.score ∧ r.bladeHeart = l.bladeHeart ∧
      r.specialHeart = l.specialHeart
  | none, none => True
  | _, _ => False

/-- A reference-data state with one set, one group and one unit. -/
def rtDb : Db :=
  { Db.empty with
    sets := [("bp1", "Booster Pack 01")]
    groups := [(1, "Love Live! Superstar!!")]
    units := [(1, "CatChu!")] }

/-- A Character payload referencing `rtDb`'s reference data through a
group-name variant. -/
def rtPayload : CreateCard :=
  ⟨"Kanon", .Character, ["LLS"], ["CatChu!"], ["skill A"],
    some "img.png",
    some (.Character ⟨9, 3, [(.Red, 1), (.Purple, 3)], none⟩),
    "PL!SP", "bp1", "001", "R"⟩

/-! ### Parser lemmas -/

theorem splitAtFirst_eq_none_iff (sep : Char) (l : List Char) :
    splitAtFirst sep l = none ↔ sep ∉ l := by
  induction l with
  | nil => simp [splitAtFirst]
  | cons c cs ih =>
    by_cases h : c = sep
    · subst h
      simp [splitAtFirst]
    · simp only [splitAtFirst, if_neg h, List.mem_cons]
      cases hs : splitAtFirst sep cs with
      | none => simpa [hs, Ne.symm h] using ih
      | some p =>
        simp only [hs, Option.map_some'] at ih ⊢
        constructor
        · intro hc; cases hc
        · intro hc
          exact absurd (ih.mpr (fun hm => hc (Or.inr hm))) (by simp)

theorem splitAtFirst_sound {sep : Char} {l a b : List Char}
    (h : splitAtFirst sep l = some (a, b)) :
    l = a ++ sep :: b ∧ sep ∉ a := by
  induction l generalizing a b with
  | nil => simp [splitAtFirst] at h
  | cons c cs ih =>
    by_cases hc : c = sep
    · subst hc
      simp only [splitAtFirst, if_pos rfl, Option.some.injEq, Prod.mk.injEq] at h
      obtain ⟨rfl, rfl⟩ := h
      simp
    · simp only [splitAtFirst, if_neg hc] at h
      cases hs : splitAtFirst sep cs with
      | none => simp [hs] at h
      | some p =>
        obtain ⟨x, y⟩ := p
        simp only [hs, Option.map_some', Option.some.injEq, Prod.mk.injEq] at h
        obtain ⟨rfl, rfl⟩ := h
        obtain ⟨hl, hn⟩ := ih hs
        refine ⟨by simp [hl], ?_⟩
        simp only [List.mem_cons, not_or]
        exact ⟨fun hh => hc hh.symm, hn⟩

theorem splitAtFirst_append {sep : Char} {a : List Char} (b : List Char)
    (ha : sep ∉ a) : splitAtFirst sep (a ++ sep :: b) = some (a, b) := by
  induction a with
  | nil => simp [splitAtFirst]
  | cons c cs ih =>
    have hc : c ≠ sep := fun h => ha (by simp [h])
    have hcs : sep ∉ cs := fun h => ha (by simp [h])
    simp [splitAtFirst, hc, ih hcs]

theorem rsplitLast_sound {sep : Char} {l a b : List Char}
    (h : rsplitLast sep l = some (a, b)) :
    l = a ++ sep :: b ∧ sep ∉ b := by
  unfold rsplitLast at h
  cases hs : splitAtFirst sep l.reverse with
  | none => simp [hs] at h
  | some p =>
    obtain ⟨x, y⟩ := p
    simp only [hs, Option.map_some', Option.some.injEq, Prod.mk.injEq] at h
    obtain ⟨rfl, rfl⟩ := h
    obtain ⟨hl, hn⟩ := splitAtFirst_sound hs
    constructor
    · have := congrArg List.reverse hl
      simpa [List.reverse_append] using this
    · simpa using hn

theorem rsplitLast_append {sep : Char} (a : List Char) {b : List Char}
    (hb : sep ∉ b) : rsplitLast sep (a ++ sep :: b) = some (a, b) := by
  have hrev : (a ++ sep :: b).reverse = b.reverse ++ sep :: a.reverse := by
    simp [List.reverse_append]
  have hbr : sep ∉ b.reverse := by simpa using hb
  unfold rsplitLast
  rw [hrev, splitAtFirst_append _ hbr]
  simp

theorem rsplitLast_eq_none_iff (sep : Char) (l : List Char) :
    rsplitLast sep l = none ↔ sep ∉ l := by
  unfold rsplitLast
  rw [Option.map_eq_none', splitAtFirst_eq_none_iff]
  simp

/-- Soundness of the identifier parser: a successful parse decomposes
the input at the first, second and last hyphens. -/
theorem parseIdParts_sound {l : List Char} {a b c d : String}
    (h : parseIdParts l = .ok (a, b, c, d)) :
    l = a.data ++ '-' :: (b.data ++ '-' :: (c.data ++ '-' :: d.data)) ∧
      '-' ∉ a.data ∧ '-' ∉ b.data ∧ '-' ∉ d.data := by
  unfold parseIdParts at h
  cases h1 : rsplitLast '-' l with
  | none => simp [h1] at h
  | some p =>
    obtain ⟨base, rarity⟩ := p
    simp only [h1] at h
    cases h2 : splitAtFirst '-' base with
    | none => simp [h2] at h
    | some q =>
      obtain ⟨series, rest⟩ := q
      simp only [h2] at h
      cases h3 : splitAtFirst '-' rest with
      | none => simp [h3] at h
      | some r =>
        obtain ⟨setc, num⟩ := r
        simp only [h3, Except.ok.injEq, Prod.mk.injEq] at h
        obtain ⟨rfl, rfl, rfl, rfl⟩ := h
        obtain ⟨hs1, hs1n⟩ := rsplitLast_sound h1
        obtain ⟨hs2, hs2n⟩ := splitAtFirst_sound h2
        obtain ⟨hs3, hs3n⟩ := splitAtFirst_sound h3
        subst hs3
        subst hs2
        refine ⟨?_, hs2n, hs3n, hs1n⟩
        simpa using hs1

/-- Completeness of the identifier parser on an explicit decomposition:
given hyphen-free series, set and rarity segments (the number segment
may contain hyphens), parsing reassembles exactly those segments. -/
theorem parseIdParts_complete {a b d : List Char} (c : List Char)
    (ha : '-' ∉ a) (hb : '-' ∉ b) (hd : '-' ∉ d) :
    parseIdParts (a ++ '-' :: (b ++ '-' :: (c ++ '-' :: d))) =
      .ok (⟨a⟩, ⟨b⟩, ⟨c⟩, ⟨d⟩) := by
  have hshape : a ++ '-' :: (b ++ '-' :: (c ++ '-' :: d)) =
      (a ++ '-' :: (b ++ '-' :: c)) ++ '-' :: d := by
    simp
  rw [parseIdParts, hshape, rsplitLast_append _ hd]
  simp only [splitAtFirst_append _ ha, splitAtFirst_append _ hb]

/-- A successful parse needs at least three hyphens. -/
theorem parseIdParts_ok_count {l : List Char} {r}
    (h : parseIdParts l = .ok r) : 3 ≤ l.count '-' := by
  obtain ⟨a, b, c, d⟩ := r
  obtain ⟨hdec, -, -, -⟩ := parseIdParts_sound h
  rw [hdec]
  simp only [List.count_append, List.count_cons_self]
  omega

/-- With at least three hyphens the parse always succeeds. -/
theorem parseIdParts_count_ok {l : List Char}
    (h : 3 ≤ l.count '-') : ∃ r, parseIdParts l = .ok r := by
  have h1 : rsplitLast '-' l ≠ none := by
    rw [Ne, rsplitLast_eq_none_iff]
    intro hmem
    rw [← List.count_eq_zero] at hmem
    omega
  obtain ⟨⟨base, rarity⟩, hb⟩ := Option.ne_none_iff_exists'.mp h1
  obtain ⟨hdec, hnr⟩ := rsplitLast_sound hb
  have hcount : base.count '-' + 1 = l.count '-' := by
    rw [hdec]
    simp [List.count_append, List.count_cons, List.count_eq_zero.mpr hnr]
  have h2 : splitAtFirst '-' base ≠ none := by
    rw [Ne, splitAtFirst_eq_none_iff]
    intro hmem
    rw [← List.count_eq_zero] at hmem
    omega
  obtain ⟨⟨series, rest⟩, hsr⟩ := Option.ne_none_iff_exists'.mp h2
  obtain ⟨hdec2, hns⟩ := splitAtFirst_sound hsr
  have hcount2 : rest.count '-' + 1 = base.count '-' := by
    rw [hdec2]
    simp [List.count_append, List.count_cons, List.count_eq_zero.mpr hns]
  have h3 : splitAtFirst '-' rest ≠ none := by
    rw [Ne, splitAtFirst_eq_none_iff]
    intro hmem
    rw [← List.count_eq_zero] at hmem
    omega
  obtain ⟨⟨setc, num⟩, hsn⟩ := Option.ne_none_iff_exists'.mp h3
  refine ⟨(⟨series⟩, ⟨setc⟩, ⟨num⟩, ⟨rarity⟩), ?_⟩
  unfold parseIdParts
  rw [hb]
  simp only [hsr, hsn]

/-- A well-formed database has no rows for the id the next creation
will allocate. -/
theorem wf_noRowsFor_next {db : Db} (h : db.wf) :
    noRowsFor db db.nextCardId := by
  obtain ⟨-, -, -, -, -, -, h7, h8, h9, h10, h11, h12, h13, h14, -⟩ := h
  refine ⟨fun c hc => ?_, fun r hr => ?_, fun r hr => ?_, fun r hr => ?_,
    fun r hr => ?_, fun r hr => ?_, fun r hr => ?_, fun r hr => ?_⟩ <;>
    exact Nat.ne_of_lt (by first
      | exact h7 _ hc
      | exact h8 _ hr
      | exact h9 _ hr
      | exact h10 _ hr
      | exact h11 _ hr
      | exact h12 _ hr
      | exact h13 _ hr
      | exact h14 _ hr)

/-! ## List helper lemmas -/

theorem find?_key_nodup {α : Type} (key : α → Nat) {l : List α} {x : α}
    {k : Nat} (hnd : (l.map key).Nodup) (hx : x ∈ l) (hk : key x = k) :
    l.find? (fun r => key r = k) = some x := by
  induction l with
  | nil => cases hx
  | cons y rest ih =>
    have hnd' : key y ∉ rest.map key ∧ (rest.map key).Nodup :=
      List.nodup_cons.mp (by simpa using hnd)
    rcases List.mem_cons.mp hx with rfl | hmem
    · exact List.find?_cons_of_pos rest (by simp [hk])
    · have hy : ¬ ((fun r => decide (key r = k)) y = true) := by
        simp only [decide_eq_true_eq]
        intro hyk
        have hxm : key x ∈ rest.map key := List.mem_map_of_mem key hmem
        rw [hk, ← hyk] at hxm
        exact hnd'.1 hxm
      rw [List.find?_cons_of_neg rest hy]
      exact ih hnd'.2 hmem

theorem find?_append_of_none {α : Type} {p : α → Bool} {l1 : List α}
    (l2 : List α) (h : l1.find? p = none) :
    (l1 ++ l2).find? p = l2.find? p := by
  rw [List.find?_append, h, Option.none_or]

theorem find?_of_forall_not {α : Type} {p : α → Bool} {l : List α}
    (h : ∀ x ∈ l, ¬ p x = true) : l.find? p = none :=
  List.find?_eq_none.mpr h

/-! ## Characterization of the creation steps -/

theorem insertHearts_eq (cardId : Nat) (hs : List (HeartColor × Int))
    (db : Db) :
    insertHearts cardId hs db =
      { db with cardHearts :=
          db.cardHearts ++ hs.map (fun p => ⟨cardId, p.1, p.2⟩) } := by
  induction hs generalizing db with
  | nil => simp [insertHearts]
  | cons p rest ih =>
    obtain ⟨color, count⟩ := p
    rw [insertHearts, ih]
    simp

/-- `groupIdOf` only reads the `groups` table. -/
theorem groupIdOf_congr {db db' : Db} (h : db'.groups = db.groups) :
    ∀ n, groupIdOf db' n = groupIdOf db n := by
  intro n
  unfold groupIdOf
  rw [h]

/-- `unitIdOf` only reads the `units` table. -/
theorem unitIdOf_congr {db db' : Db} (h : db'.units = db.units) :
    ∀ n, unitIdOf db' n = unitIdOf db n := by
  intro n
  unfold unitIdOf
  rw [h]

/-- When every canonicalized group resolves, the group-linking loop
appends exactly the resolved links. -/
theorem linkGroups_eq (gvc : List (String × String)) (cardId : Nat)
    {gs : List String} {db : Db}
    (h : ∀ g ∈ gs, (groupIdOf db (canonicalLookup gvc g)).isSome) :
    linkGroups gvc cardId gs db = .ok
      { db with cardGroups := db.cardGroups ++
          gs.map (fun g =>
            (cardId, (groupIdOf db (canonicalLookup gvc g)).getD 0)) } := by
  induction gs generalizing db with
  | nil => simp [linkGroups]
  | cons g rest ih =>
    have hg := h g (List.mem_cons_self g rest)
    obtain ⟨gid, hgid⟩ := Option.isSome_iff_exists.mp hg
    rw [linkGroups]
    simp only [hgid]
    have hrest : ∀ g' ∈ rest,
        (groupIdOf { db with cardGroups := db.cardGroups ++ [(cardId, gid)] }
          (canonicalLookup gvc g')).isSome := fun g' hm =>
      h g' (List.mem_cons_of_mem _ hm)
    rw [ih hrest]
    have hcongr : ∀ n,
        groupIdOf { db with cardGroups := db.cardGroups ++ [(cardId, gid)] } n =
          groupIdOf db n := fun _ => rfl
    simp only [hcongr, List.map_cons, hgid, Option.getD_some]
    simp [List.append_assoc]

/-- On success the group-linking loop only changes `cardGroups`. -/
theorem linkGroups_shape {gvc : List (String × String)} {cardId : Nat}
    {gs : List String} {db db' : Db}
    (h : linkGroups gvc cardId gs db = .ok db') :
    ∃ l, db' = { db with cardGroups := l } := by
  induction gs generalizing db with
  | nil =>
    simp only [linkGroups, Except.ok.injEq] at h
    exact ⟨db.cardGroups, by rw [← h]⟩
  | cons g rest ih =>
    rw [linkGroups] at h
    cases hgid : groupIdOf db (canonicalLookup gvc g) with
    | none => simp [hgid] at h
    | some gid =>
      simp only [hgid] at h
      obtain ⟨l, hl⟩ := ih h
      exact ⟨l, by rw [hl]⟩

/-- If some canonicalized group is missing, the loop fails with
`GroupNotFound` naming a missing canonicalized group of the list. -/
theorem linkGroups_fails {gvc : List (String × String)} (cardId : Nat)
    {gs : List String} {db : Db}
    (h : ∃ g ∈ gs, groupIdOf db (canonicalLookup gvc g) = none) :
    ∃ g ∈ gs, groupIdOf db (canonicalLookup gvc g) = none ∧
      linkGroups gvc cardId gs db =
        .error (.groupNotFound (canonicalLookup gvc g)) := by
  induction gs generalizing db with
  | nil => obtain ⟨g, hg, -⟩ := h; cases hg
  | cons g rest ih =>
    cases hgid : groupIdOf db (canonicalLookup gvc g) with
    | none =>
      refine ⟨g, List.mem_cons_self g rest, hgid, ?_⟩
      rw [linkGroups]
      simp [hgid]
    | some gid =>
      obtain ⟨g', hg', hnone⟩ := h
      rcases List.mem_cons.mp hg' with rfl | hmem
      · rw [hgid] at hnone; cases hnone
      · have hrest : ∃ g'' ∈ rest,
            groupIdOf { db with cardGroups := db.cardGroups ++ [(cardId, gid)] }
              (canonicalLookup gvc g'') = none := ⟨g', hmem, hnone⟩
        obtain ⟨g'', hg'', hn'', herr⟩ := ih hrest
        refine ⟨g'', List.mem_cons_of_mem _ hg'', hn'', ?_⟩
        rw [linkGroups]
        simp only [hgid]
        exact herr

/-- When every unit resolves, the unit-linking loop appends exactly the
resolved links. -/
theorem linkUnits_eq (cardId : Nat) {us : List String} {db : Db}
    (h : ∀ u ∈ us, (unitIdOf db u).isSome) :
    linkUnits cardId us db = .ok
      { db with cardUnits := db.cardUnits ++
          us.map (fun u => (cardId, (unitIdOf db u).getD 0)) } := by
  induction us generalizing db with
  | nil => simp [linkUnits]
  | cons u rest ih =>
    have hu := h u (List.mem_cons_self u rest)
    obtain ⟨uid, huid⟩ := Option.isSome_iff_exists.mp hu
    rw [linkUnits]
    simp only [huid]
    have hrest : ∀ u' ∈ rest,
        (unitIdOf { db with cardUnits := db.cardUnits ++ [(cardId, uid)] }
          u').isSome := fun u' hm => h u' (List.mem_cons_of_mem _ hm)
    rw [ih hrest]
    have hcongr : ∀ n,
        unitIdOf { db with cardUnits := db.cardUnits ++ [(cardId, uid)] } n =
          unitIdOf db n := fun _ => rfl
    simp only [hcongr, List.map_cons, huid, Option.getD_some]
    simp [List.append_assoc]

/-- On success the unit-linking loop only changes `cardUnits`. -/
theorem linkUnits_shape {cardId : Nat} {us : List String} {db db' : Db}
    (h : linkUnits cardId us db = .ok db') :
    ∃ l, db' = { db with cardUnits := l } := by
  induction us generalizing db with
  | nil =>
    simp only [linkUnits, Except.ok.injEq] at h
    exact ⟨db.cardUnits, by rw [← h]⟩
  | cons u rest ih =>
    rw [linkUnits] at h
    cases huid : unitIdOf db u with
    | none => simp [huid] at h
    | some uid =>
      simp only [huid] at h
      obtain ⟨l, hl⟩ := ih h
      exact ⟨l, by rw [hl]⟩

/-- If some unit is missing, the loop fails with `UnitNotFound` naming a
missing unit of the list. -/
theorem linkUnits_fails (cardId : Nat) {us : List String} {db : Db}
    (h : ∃ u ∈ us, unitIdOf db u = none) :
    ∃ u ∈ us, unitIdOf db u = none ∧
      linkUnits cardId us db = .error (.unitNotFound u) := by
  induction us generalizing db with
  | nil => obtain ⟨u, hu, -⟩ := h; cases hu
  | cons u rest ih =>
    cases huid : unitIdOf db u with
    | none =>
      refine ⟨u, List.mem_cons_self u rest, huid, ?_⟩
      rw [linkUnits]
      simp [huid]
    | some uid =>
      obtain ⟨u', hu', hnone⟩ := h
      rcases List.mem_cons.mp hu' with rfl | hmem
      · rw [huid] at hnone; cases hnone
      · have hrest : ∃ u'' ∈ rest,
            unitIdOf { db with cardUnits := db.cardUnits ++ [(cardId, uid)] }
              u'' = none := ⟨u', hmem, hnone⟩
        obtain ⟨u'', hu'', hn'', herr⟩ := ih hrest
        refine ⟨u'', List.mem_cons_of_mem _ hu'', hn'', ?_⟩
        rw [linkUnits]
        simp only [huid]
        exact herr

/-- On success the skill-linking loop only changes `skills`,
`cardSkills` and the skill-id counter. -/
theorem linkSkills_shape {cardId : Nat} {ts : List String} {db db' : Db}
    (h : linkSkills cardId ts db = .ok db') :
    ∃ s cs n, db' =
      { db with skills := s, cardSkills := cs, nextSkillId := n } := by
  induction ts generalizing db with
  | nil =>
    simp only [linkSkills, Except.ok.injEq] at h
    exact ⟨db.skills, db.cardSkills, db.nextSkillId, by rw [← h]⟩
  | cons t rest ih =>
    rw [linkSkills] at h
    by_cases hfound : (db.skills.find? (fun s => s.2 = t)).isSome
    · simp only [hfound, if_true] at h
      cases hs : db.skills.find? (fun s => s.2 = t) with
      | none => rw [hs] at hfound; cases hfound
      | some s =>
        rw [hs] at h
        obtain ⟨sk, cs, n, hd⟩ := ih h
        exact ⟨sk, cs, n, by rw [hd]⟩
    · simp only [hfound, if_false, Bool.false_eq_true] at h
      have hnone : db.skills.find? (fun s => s.2 = t) = none :=
        Option.not_isSome_iff_eq_none.mp hfound
      have hnew : (db.skills ++ [(db.nextSkillId, t)]).find?
          (fun s => s.2 = t) = some (db.nextSkillId, t) := by
        rw [find?_append_of_none _ hnone]
        simp
      simp only [hnew] at h
      obtain ⟨sk, cs, n, hd⟩ := ih h
      exact ⟨sk, cs, n, by rw [hd]⟩

/-- Under the skill-table invariants the skill-linking loop succeeds and
the skills later read back for the card are exactly the old ones
followed by the payload's skill texts in order. -/
theorem linkSkills_ok (cardId : Nat) (ts : List String) (db : Db)
    (h1 : ∀ s ∈ db.skills, s.1 < db.nextSkillId)
    (h2 : (db.skills.map Prod.fst).Nodup)
    (h3 : ∀ r ∈ db.cardSkills, r.2 < db.nextSkillId) :
    ∃ db', linkSkills cardId ts db = .ok db' ∧
      fetchSkillsForCard db' cardId = fetchSkillsForCard db cardId ++ ts := by
  induction ts generalizing db with
  | nil => exact ⟨db, by simp [linkSkills]⟩
  | cons t rest ih =>
    by_cases hfound : (db.skills.find? (fun s => s.2 = t)).isSome
    · obtain ⟨s, hs⟩ := Option.isSome_iff_exists.mp hfound
      have hsmem : s ∈ db.skills := List.mem_of_find?_eq_some hs
      have hst : s.2 = t := by
        have := List.find?_some hs
        simpa using this
      have h3' : ∀ r ∈ (db.cardSkills ++ [(cardId, s.1)]), r.2 < db.nextSkillId := by
        intro r hr
        rcases List.mem_append.mp hr with hr | hr
        · exact h3 r hr
        · simp only [List.mem_singleton] at hr
          subst hr
          exact h1 s hsmem
      obtain ⟨db', hrun, hfetch⟩ :=
        @ih { db with cardSkills := db.cardSkills ++ [(cardId, s.1)] }
          h1 h2 h3'
      refine ⟨db', ?_, ?_⟩
      · rw [linkSkills, if_pos hfound]
        simp only [hs]
        exact hrun
      · rw [hfetch]
        have hstep : fetchSkillsForCard
            { db with cardSkills := db.cardSkills ++ [(cardId, s.1)] } cardId =
            fetchSkillsForCard db cardId ++ [t] := by
          unfold fetchSkillsForCard
          show ((db.cardSkills ++ [(cardId, s.1)]).filter _).filterMap _ = _
          rw [List.filter_append]
          rw [List.filterMap_append]
          congr 1
          have hone : List.filter (fun r => r.1 = cardId) [(cardId, s.1)] =
              [(cardId, s.1)] := by simp
          rw [hone]
          have hfind : db.skills.find? (fun x => x.1 = s.1) = some s :=
            find?_key_nodup Prod.fst h2 hsmem rfl
          simp [hfind, hst]
        rw [hstep, List.append_assoc]
        rfl
    · have hnone : db.skills.find? (fun s => s.2 = t) = none :=
        Option.not_isSome_iff_eq_none.mp hfound
      set nId := db.nextSkillId with hnId
      have hnew : (db.skills ++ [(nId, t)]).find? (fun s => s.2 = t) =
          some (nId, t) := by
        rw [find?_append_of_none _ hnone]
        simp
      have h1' : ∀ s ∈ (db.skills ++ [(nId, t)]), s.1 < nId + 1 := by
        intro s hsm
        rcases List.mem_append.mp hsm with hsm | hsm
        · exact Nat.lt_succ_of_lt (h1 s hsm)
        · simp only [List.mem_singleton] at hsm
          subst hsm
          exact Nat.lt_succ_self _
      have h2' : ((db.skills ++ [(nId, t)]).map Prod.fst).Nodup := by
        rw [List.map_append]
        simp only [List.map_cons, List.map_nil]
        rw [List.nodup_append]
        refine ⟨h2, List.nodup_singleton _, ?_⟩
        intro a ha hb
        simp only [List.mem_singleton] at hb
        subst hb
        obtain ⟨s, hsm, hsa⟩ := List.mem_map.mp ha
        exact absurd hsa (Nat.ne_of_lt (h1 s hsm))
      have h3' : ∀ r ∈ (db.cardSkills ++ [(cardId, nId)]), r.2 < nId + 1 := by
        intro r hr
        rcases List.mem_append.mp hr with hr | hr
        · exact Nat.lt_succ_of_lt (h3 r hr)
        · simp only [List.mem_singleton] at hr
          subst hr
          exact Nat.lt_succ_self _
      obtain ⟨db', hrun, hfetch⟩ := @ih
        { db with
          skills := db.skills ++ [(nId, t)]
          nextSkillId := nId + 1
          cardSkills := db.cardSkills ++ [(cardId, nId)] } h1' h2' h3'
      refine ⟨db', ?_, ?_⟩
      · rw [linkSkills, if_neg hfound]
        simp only [hnew]
        exact hrun
      · rw [hfetch]
        have hstep : fetchSkillsForCard
            { db with
              skills := db.skills ++ [(nId, t)]
              nextSkillId := nId + 1
              cardSkills := db.cardSkills ++ [(cardId, nId)] } cardId =
            fetchSkillsForCard db cardId ++ [t] := by
          unfold fetchSkillsForCard
          show ((db.cardSkills ++ [(cardId, nId)]).filter _).filterMap _ = _
          rw [List.filter_append, List.filterMap_append]
          congr 1
          · apply List.filterMap_congr
            intro r hr
            have hrm : r ∈ db.cardSkills := List.mem_of_mem_filter hr
            have hlt : r.2 < nId := h3 r hrm
            rw [List.find?_append]
            have hsing : List.find? (fun x => x.1 = r.2) [(nId, t)] = none := by
              simp [Nat.ne_of_gt hlt]
            rw [hsing, Option.or_none]
          · have holdnone : db.skills.find? (fun x => x.1 = nId) = none :=
              find?_of_forall_not (fun s hsm => by
                simp only [decide_eq_true_eq]
                exact Nat.ne_of_lt (h1 s hsm))
            simp [holdnone]
        rw [hstep, List.append_assoc]
        rfl

/-! ## Projection lemmas for the creation steps -/

@[simp] theorem upsertName_sets (db : Db) (n : String) :
    (upsertName db n).sets = db.sets := by
  unfold upsertName; split <;> rfl

@[simp] theorem upsertName_groups (db : Db) (n : String) :
    (upsertName db n).groups = db.groups := by
  unfold upsertName; split <;> rfl

@[simp] theorem upsertName_units (db : Db) (n : String) :
    (upsertName db n).units = db.units := by
  unfold upsertName; split <;> rfl

@[simp] theorem upsertName_skills (db : Db) (n : String) :
    (upsertName db n).skills = db.skills := by
  unfold upsertName; split <;> rfl

@[simp] theorem upsertName_cards (db : Db) (n : String) :
    (upsertName db n).cards = db.cards := by
  unfold upsertName; split <;> rfl

@[simp] theorem upsertName_characterCards (db : Db) (n : String) :
    (upsertName db n).characterCards = db.characterCards := by
  unfold upsertName; split <;> rfl

@[simp] theorem upsertName_liveCards (db : Db) (n : String) :
    (upsertName db n).liveCards = db.liveCards := by
  unfold upsertName; split <;> rfl

@[simp] theorem upsertName_printings (db : Db) (n : String) :
    (upsertName db n).printings = db.printings := by
  unfold upsertName; split <;> rfl

@[simp] theorem upsertName_cardHearts (db : Db) (n : String) :
    (upsertName db n).cardHearts = db.cardHearts := by
  unfold upsertName; split <;> rfl

@[simp] theorem upsertName_cardGroups (db : Db) (n : String) :
    (upsertName db n).cardGroups = db.cardGroups := by
  unfold upsertName; split <;> rfl

@[simp] theorem upsertName_cardUnits (db : Db) (n : String) :
    (upsertName db n).cardUnits = db.cardUnits := by
  unfold upsertName; split <;> rfl

@[simp] theorem upsertName_cardSkills (db : Db) (n : String) :
    (upsertName db n).cardSkills = db.cardSkills := by
  unfold upsertName; split <;> rfl

@[simp] theorem upsertName_nextCardId (db : Db) (n : String) :
    (upsertName db n).nextCardId = db.nextCardId := by
  unfold upsertName; split <;> rfl

@[simp] theorem upsertName_nextSkillId (db : Db) (n : String) :
    (upsertName db n).nextSkillId = db.nextSkillId := by
  unfold upsertName; split <;> rfl

@[simp] theorem upsertName_nextPrintingId (db : Db) (n : String) :
    (upsertName db n).nextPrintingId = db.nextPrintingId := by
  unfold upsertName; split <;> rfl

@[simp] theorem insertSpecifics_names (cardId : Nat)
    (spec : Option CreateCardTypeSpecifics) (db : Db) :
    (insertSpecifics cardId spec db).names = db.names := by
  rcases spec with - | s
  · rfl
  · cases s <;> rfl

@[simp] theorem insertSpecifics_sets (cardId : Nat)
    (spec : Option CreateCardTypeSpecifics) (db : Db) :
    (insertSpecifics cardId spec db).sets = db.sets := by
  rcases spec with - | s
  · rfl
  · cases s <;> rfl

@[simp] theorem insertSpecifics_groups (cardId : Nat)
    (spec : Option CreateCardTypeSpecifics) (db : Db) :
    (insertSpecifics cardId spec db).groups = db.groups := by
  rcases spec with - | s
  · rfl
  · cases s <;> rfl

@[simp] theorem insertSpecifics_units (cardId : Nat)
    (spec : Option CreateCardTypeSpecifics) (db : Db) :
    (insertSpecifics cardId spec db).units = db.units := by
  rcases spec with - | s
  · rfl
  · cases s <;> rfl

@[simp] theorem insertSpecifics_skills (cardId : Nat)
    (spec : Option CreateCardTypeSpecifics) (db : Db) :
    (insertSpecifics cardId spec db).skills = db.skills := by
  rcases spec with - | s
  · rfl
  · cases s <;> rfl

@[simp] theorem insertSpecifics_cards (cardId : Nat)
    (spec : Option CreateCardTypeSpecifics) (db : Db) :
    (insertSpecifics cardId spec db).cards = db.cards := by
  rcases spec with - | s
  · rfl
  · cases s <;> rfl

@[simp] theorem insertSpecifics_printings (cardId : Nat)
    (spec : Option CreateCardTypeSpecifics) (db : Db) :
    (insertSpecifics cardId spec db).printings = db.printings := by
  rcases spec with - | s
  · rfl
  · cases s <;> rfl

@[simp] theorem insertSpecifics_cardHearts (cardId : Nat)
    (spec : Option CreateCardTypeSpecifics) (db : Db) :
    (insertSpecifics cardId spec db).cardHearts = db.cardHearts := by
  rcases spec with - | s
  · rfl
  · cases s <;> rfl

@[simp] theorem insertSpecifics_cardGroups (cardId : Nat)
    (spec : Option CreateCardTypeSpecifics) (db : Db) :
    (insertSpecifics cardId spec db).cardGroups = db.cardGroups := by
  rcases spec with - | s
  · rfl
  · cases s <;> rfl

@[simp] theorem insertSpecifics_cardUnits (cardId : Nat)
    (spec : Option CreateCardTypeSpecifics) (db : Db) :
    (insertSpecifics cardId spec db).cardUnits = db.cardUnits := by
  rcases spec with - | s
  · rfl
  · cases s <;> rfl

@[simp] theorem insertSpecifics_cardSkills (cardId : Nat)
    (spec : Option CreateCardTypeSpecifics) (db : Db) :
    (insertSpecifics cardId spec db).cardSkills = db.cardSkills := by
  rcases spec with - | s
  · rfl
  · cases s <;> rfl

@[simp] theorem insertSpecifics_nextNameId (cardId : Nat)
    (spec : Option CreateCardTypeSpecifics) (db : Db) :
    (insertSpecifics cardId spec db).nextNameId = db.nextNameId := by
  rcases spec with - | s
  · rfl
  · cases s <;> rfl

@[simp] theorem insertSpecifics_nextCardId (cardId : Nat)
    (spec : Option CreateCardTypeSpecifics) (db : Db) :
    (insertSpecifics cardId spec db).nextCardId = db.nextCardId := by
  rcases spec with - | s
  · rfl
  · cases s <;> rfl

@[simp] theorem insertSpecifics_nextSkillId (cardId : Nat)
    (spec : Option CreateCardTypeSpecifics) (db : Db) :
    (insertSpecifics cardId spec db).nextSkillId = db.nextSkillId := by
  rcases spec with - | s
  · rfl
  · cases s <;> rfl

@[simp] theorem insertSpecifics_nextPrintingId (cardId : Nat)
    (spec : Option CreateCardTypeSpecifics) (db : Db) :
    (insertSpecifics cardId spec db).nextPrintingId = db.nextPrintingId := by
  rcases spec with - | s
  · rfl
  · cases s <;> rfl

/-! ### Projections of the pure insert stage -/

@[simp] theorem stageInserts_names (rc : List (String × RarityType))
    (c : CreateCard) (nameId cardId : Nat) (db1 : Db) :
    (stageInserts rc c nameId cardId db1).names = db1.names := by
  simp [stageInserts, insertHearts_eq]

@[simp] theorem stageInserts_sets (rc : List (String × RarityType))
    (c : CreateCard) (nameId cardId : Nat) (db1 : Db) :
    (stageInserts rc c nameId cardId db1).sets = db1.sets := by
  simp [stageInserts, insertHearts_eq]

@[simp] theorem stageInserts_groups (rc : List (String × RarityType))
    (c : CreateCard) (nameId cardId : Nat) (db1 : Db) :
    (stageInserts rc c nameId cardId db1).groups = db1.groups := by
  simp [stageInserts, insertHearts_eq]

@[simp] theorem stageInserts_units (rc : List (String × RarityType))
    (c : CreateCard) (nameId cardId : Nat) (db1 : Db) :
    (stageInserts rc c nameId cardId db1).units = db1.units := by
  simp [stageInserts, insertHearts_eq]

@[simp] theorem stageInserts_skills (rc : List (String × RarityType))
    (c : CreateCard) (nameId cardId : Nat) (db1 : Db) :
    (stageInserts rc c nameId cardId db1).skills = db1.skills := by
  simp [stageInserts, insertHearts_eq]

@[simp] theorem stageInserts_cardGroups (rc : List (String × RarityType))
    (c : CreateCard) (nameId cardId : Nat) (db1 : Db) :
    (stageInserts rc c nameId cardId db1).cardGroups = db1.cardGroups := by
  simp [stageInserts, insertHearts_eq]

@[simp] theorem stageInserts_cardUnits (rc : List (String × RarityType))
    (c : CreateCard) (nameId cardId : Nat) (db1 : Db) :
    (stageInserts rc c nameId cardId db1).cardUnits = db1.cardUnits := by
  simp [stageInserts, insertHearts_eq]

@[simp] theorem stageInserts_cardSkills (rc : List (String × RarityType))
    (c : CreateCard) (nameId cardId : Nat) (db1 : Db) :
    (stageInserts rc c nameId cardId db1).cardSkills = db1.cardSkills := by
  simp [stageInserts, insertHearts_eq]

@[simp] theorem stageInserts_nextNameId (rc : List (String × RarityType))
    (c : CreateCard) (nameId cardId : Nat) (db1 : Db) :
    (stageInserts rc c nameId cardId db1).nextNameId = db1.nextNameId := by
  simp [stageInserts, insertHearts_eq]

@[simp] theorem stageInserts_nextSkillId (rc : List (String × RarityType))
    (c : CreateCard) (nameId cardId : Nat) (db1 : Db) :
    (stageInserts rc c nameId cardId db1).nextSkillId = db1.nextSkillId := by
  simp [stageInserts, insertHearts_eq]

@[simp] theorem stageInserts_nextCardId (rc : List (String × RarityType))
    (c : CreateCard) (nameId cardId : Nat) (db1 : Db) :
    (stageInserts rc c nameId cardId db1).nextCardId = db1.nextCardId + 1 := by
  simp [stageInserts, insertHearts_eq]

@[simp] theorem stageInserts_nextPrintingId (rc : List (String × RarityType))
    (c : CreateCard) (nameId cardId : Nat) (db1 : Db) :
    (stageInserts rc c nameId cardId db1).nextPrintingId =
      db1.nextPrintingId + 1 := by
  simp [stageInserts, insertHearts_eq]

@[simp] theorem stageInserts_cards (rc : List (String × RarityType))
    (c : CreateCard) (nameId cardId : Nat) (db1 : Db) :
    (stageInserts rc c nameId cardId db1).cards = db1.cards ++
      [⟨cardId, c.seriesCode, c.setCode, c.numberInSet, nameId,
        c.cardType⟩] := by
  simp [stageInserts, insertHearts_eq]

@[simp] theorem stageInserts_printings (rc : List (String × RarityType))
    (c : CreateCard) (nameId cardId : Nat) (db1 : Db) :
    (stageInserts rc c nameId cardId db1).printings = db1.printings ++
      [⟨db1.nextPrintingId, cardId, c.rarityCode,
        rarityLookup rc c.rarityCode, c.imageUrl⟩] := by
  simp [stageInserts, insertHearts_eq]

@[simp] theorem stageInserts_cardHearts (rc : List (String × RarityType))
    (c : CreateCard) (nameId cardId : Nat) (db1 : Db) :
    (stageInserts rc c nameId cardId db1).cardHearts = db1.cardHearts ++
      (heartsOf c.typeSpecifics).map (fun p => ⟨cardId, p.1, p.2⟩) := by
  simp [stageInserts, insertHearts_eq]

theorem stageInserts_characterCards (rc : List (String × RarityType))
    (c : CreateCard) (nameId cardId : Nat) (db1 : Db) :
    (stageInserts rc c nameId cardId db1).characterCards =
      db1.characterCards ++
        (match c.typeSpecifics with
          | some (.Character ch) => [⟨cardId, ch.cost, ch.blades, ch.bladeHeart⟩]
          | _ => []) := by
  rcases hs : c.typeSpecifics with - | s
  · simp [stageInserts, insertHearts_eq, insertSpecifics, hs]
  · cases s <;> simp [stageInserts, insertHearts_eq, insertSpecifics, hs]

theorem stageInserts_liveCards (rc : List (String × RarityType))
    (c : CreateCard) (nameId cardId : Nat) (db1 : Db) :
    (stageInserts rc c nameId cardId db1).liveCards =
      db1.liveCards ++
        (match c.typeSpecifics with
          | some (.Live l) => [⟨cardId, l.score, l.bladeHeart, l.specialHeart⟩]
          | _ => []) := by
  rcases hs : c.typeSpecifics with - | s
  · simp [stageInserts, insertHearts_eq, insertSpecifics, hs]
  · cases s <;> simp [stageInserts, insertHearts_eq, insertSpecifics, hs]

/-- After the name upsert the id lookup always succeeds, and looking the
returned id back up in the names table yields the canonical name. -/
theorem upsertName_lookup {db : Db} (n : String)
    (h1 : ∀ r ∈ db.names, r.1 < db.nextNameId)
    (h2 : (db.names.map Prod.fst).Nodup) :
    ∃ nid, lookupNameId (upsertName db n) n = .ok nid ∧
      (upsertName db n).names.find? (fun r => r.1 = nid) = some (nid, n) := by
  cases hfound : db.names.find? (fun r => r.2 = n) with
  | some r =>
    obtain ⟨r1, r2⟩ := r
    have hup : upsertName db n = db := by
      unfold upsertName
      rw [if_pos (by rw [hfound]; rfl)]
    have hr2 : r2 = n := by simpa using List.find?_some hfound
    subst hr2
    have hrmem : (r1, r2) ∈ db.names := List.mem_of_find?_eq_some hfound
    refine ⟨r1, ?_, ?_⟩
    · rw [hup]
      unfold lookupNameId
      rw [hfound]
    · rw [hup]
      exact find?_key_nodup Prod.fst h2 hrmem rfl
  | none =>
    have hup : upsertName db n = { db with
        names := db.names ++ [(db.nextNameId, n)]
        nextNameId := db.nextNameId + 1 } := by
      unfold upsertName
      rw [if_neg (by rw [hfound]; simp)]
    refine ⟨db.nextNameId, ?_, ?_⟩
    · rw [hup]
      unfold lookupNameId
      show (match (db.names ++ [(db.nextNameId, n)]).find?
        (fun r => r.2 = n) with
        | some r => Except.ok r.1
        | none => Except.error SqlxError.rowNotFound) = _
      rw [find?_append_of_none _ hfound]
      simp
    · rw [hup]
      show (db.names ++ [(db.nextNameId, n)]).find?
        (fun r => r.1 = db.nextNameId) = _
      rw [find?_append_of_none]
      · simp
      · exact find?_of_forall_not (fun r hr => by
          simp only [decide_eq_true_eq]
          exact Nat.ne_of_lt (h1 r hr))

/-- The name-id lookup after the upsert never fails. -/
theorem lookupNameId_upsert_isOk (db : Db) (n : String) :
    ∃ nid, lookupNameId (upsertName db n) n = .ok nid := by
  cases hfound : db.names.find? (fun r => r.2 = n) with
  | some r =>
    have hup : upsertName db n = db := by
      unfold upsertName
      rw [if_pos (by rw [hfound]; rfl)]
    refine ⟨r.1, ?_⟩
    rw [hup]
    unfold lookupNameId
    rw [hfound]
  | none =>
    have hup : upsertName db n = { db with
        names := db.names ++ [(db.nextNameId, n)]
        nextNameId := db.nextNameId + 1 } := by
      unfold upsertName
      rw [if_neg (by rw [hfound]; simp)]
    refine ⟨db.nextNameId, ?_⟩
    rw [hup]
    unfold lookupNameId
    show (match (db.names ++ [(db.nextNameId, n)]).find?
      (fun r => r.2 = n) with
      | some r => Except.ok r.1
      | none => Except.error SqlxError.rowNotFound) = _
    rw [find?_append_of_none _ hfound]
    simp

/-- Unfolding of the unit of work once the name id is known. -/
theorem createFullCardWithTx_run (rc : List (String × RarityType))
    (nvc gvc : List (String × String)) (c : CreateCard) (db : Db) :
    ∃ nid, lookupNameId (upsertName db (canonicalLookup nvc c.name))
        (canonicalLookup nvc c.name) = .ok nid ∧
      createFullCardWithTx rc nvc gvc c db =
        (match linkGroups gvc db.nextCardId c.groups
            (stageInserts rc c nid db.nextCardId
              (upsertName db (canonicalLookup nvc c.name))) with
        | .error e => .error e
        | .ok db6 =>
          match linkUnits db.nextCardId c.units db6 with
          | .error e => .error e
          | .ok db7 =>
            match linkSkills db.nextCardId c.skills db7 with
            | .error e => .error e
            | .ok db8 => .ok (db.nextCardId, db8)) := by
  obtain ⟨nid, hnid⟩ :=
    lookupNameId_upsert_isOk db (canonicalLookup nvc c.name)
  refine ⟨nid, hnid, ?_⟩
  simp only [createFullCardWithTx]
  rw [hnid]
  simp only [upsertName_nextCardId]

/-- Shape of a successful unit of work: the new id is the allocated
card id, and the committed state has exactly one appended printing
(with the cache-resolved rarity) and exactly the payload's heart rows. -/
theorem createFullCardWithTx_ok_shape {rc : List (String × RarityType)}
    {nvc gvc : List (String × String)} {c : CreateCard} {db : Db}
    {cardId : Nat} {db' : Db}
    (h : createFullCardWithTx rc nvc gvc c db = .ok (cardId, db')) :
    cardId = db.nextCardId ∧
    db'.printings = db.printings ++
      [⟨db.nextPrintingId, cardId, c.rarityCode,
        rarityLookup rc c.rarityCode, c.imageUrl⟩] ∧
    db'.cardHearts = db.cardHearts ++
      (heartsOf c.typeSpecifics).map (fun p => ⟨cardId, p.1, p.2⟩) := by
  obtain ⟨nid, hnid, hrun⟩ := createFullCardWithTx_run rc nvc gvc c db
  rw [hrun] at h
  cases hg : linkGroups gvc db.nextCardId c.groups
      (stageInserts rc c nid db.nextCardId
        (upsertName db (canonicalLookup nvc c.name))) with
  | error e => simp [hg] at h
  | ok db6 =>
    simp only [hg] at h
    cases hu : linkUnits db.nextCardId c.units db6 with
    | error e => simp [hu] at h
    | ok db7 =>
      simp only [hu] at h
      cases hsk : linkSkills db.nextCardId c.skills db7 with
      | error e => simp [hsk] at h
      | ok db8 =>
        simp only [hsk, Except.ok.injEq, Prod.mk.injEq] at h
        obtain ⟨hcid, hdb⟩ := h
        obtain ⟨l6, hdb6⟩ := linkGroups_shape hg
        obtain ⟨l7, hdb7⟩ := linkUnits_shape hu
        obtain ⟨s8, cs8, n8, hdb8⟩ := linkSkills_shape hsk
        subst hdb
        subst hcid
        refine ⟨rfl, ?_, ?_⟩ <;>
          simp [hdb8, hdb7, hdb6]

/-- A payload referencing a missing (canonicalized) group or a missing
unit makes the unit of work fail with the matching not-found error. -/
theorem createFullCardWithTx_fails (rc : List (String × RarityType))
    (nvc : List (String × String)) {gvc : List (String × String)}
    {c : CreateCard} {db : Db}
    (hFail : (∃ g ∈ c.groups, groupIdOf db (canonicalLookup gvc g) = none) ∨
      (∃ u ∈ c.units, unitIdOf db u = none)) :
    ∃ e, createFullCardWithTx rc nvc gvc c db = .error e ∧
      ((∃ g ∈ c.groups, e = DbError.groupNotFound (canonicalLookup gvc g) ∧
          groupIdOf db (canonicalLookup gvc g) = none) ∨
        (∃ u ∈ c.units, e = DbError.unitNotFound u ∧
          unitIdOf db u = none)) := by
  obtain ⟨nid, hnid, hrun⟩ := createFullCardWithTx_run rc nvc gvc c db
  have hDgroups : (stageInserts rc c nid db.nextCardId
      (upsertName db (canonicalLookup nvc c.name))).groups = db.groups := by
    simp
  have hDunits : (stageInserts rc c nid db.nextCardId
      (upsertName db (canonicalLookup nvc c.name))).units = db.units := by
    simp
  generalize hD : stageInserts rc c nid db.nextCardId
    (upsertName db (canonicalLookup nvc c.name)) = D at hrun hDgroups hDunits
  have hDg := groupIdOf_congr hDgroups
  have hDu := unitIdOf_congr hDunits
  by_cases hg : ∃ g ∈ c.groups, groupIdOf db (canonicalLookup gvc g) = none
  · obtain ⟨g0, hm0, hn0⟩ := hg
    obtain ⟨g, hgm, hgn, herr⟩ := linkGroups_fails db.nextCardId
      ⟨g0, hm0, by rw [hDg]; exact hn0⟩
    refine ⟨DbError.groupNotFound (canonicalLookup gvc g), ?_,
      Or.inl ⟨g, hgm, rfl, by rw [← hDg]; exact hgn⟩⟩
    rw [hrun]
    simp only [herr]
  · rcases hFail with hgx | hux
    · exact absurd hgx hg
    · push_neg at hg
      have hall : ∀ g ∈ c.groups,
          (groupIdOf D (canonicalLookup gvc g)).isSome := by
        intro g hgm
        rw [hDg]
        exact Option.ne_none_iff_isSome.mp (hg g hgm)
      have hEunits : ({ D with cardGroups := (D.cardGroups ++
          c.groups.map (fun g => (db.nextCardId,
            (groupIdOf D (canonicalLookup gvc g)).getD 0))) } : Db).units =
          db.units := hDunits
      obtain ⟨u0, hum0, hun0⟩ := hux
      obtain ⟨u, hum, hun, herr2⟩ := linkUnits_fails db.nextCardId
        ⟨u0, hum0, by rw [unitIdOf_congr hEunits]; exact hun0⟩
      refine ⟨DbError.unitNotFound u, ?_,
        Or.inr ⟨u, hum, rfl, by
          rw [unitIdOf_congr hEunits] at hun
          exact hun⟩⟩
      rw [hrun, linkGroups_eq gvc db.nextCardId hall]
      simp only [herr2]

/-! ## Claim theorems -/

/-- C5: identifier parsing splits at the last hyphen and then at the
first two hyphens of the prefix; `PL!SP-bp1-001-R` parses to series
`PL!SP`, set `bp1`, number `001`, rarity `R`, and the malformed
identifier `PL!S-bp2-001` is rejected with the ValidationError naming
the expected series-set-number-rarity shape. -/
theorem c5_identifier_parsing :
    parseCardIdentifier "PL!SP-bp1-001-R" = .ok ("PL!SP", "bp1", "001", "R") ∧
    parseCardIdentifier "PL!S-bp2-001" = .error identifierFormatMsg ∧
    (∀ (s a b c d : String), parseCardIdentifier s = .ok (a, b, c, d) →
      s.data = a.data ++ '-' :: (b.data ++ '-' :: (c.data ++ '-' :: d.data)) ∧
        '-' ∉ a.data ∧ '-' ∉ b.data ∧ '-' ∉ d.data) :=
  ⟨by rfl, by rfl, fun _ _ _ _ _ h => parseIdParts_sound h⟩

/-- Witness for C5 at the concrete identifier `a-b-c-d`. -/
theorem c5_identifier_parsing_witness :
    ("a-b-c-d" : String).data =
      ("a" : String).data ++ '-' :: (("b" : String).data ++ '-' ::
        (("c" : String).data ++ '-' :: ("d" : String).data)) ∧
      '-' ∉ ("a" : String).data ∧ '-' ∉ ("b" : String).data ∧
      '-' ∉ ("d" : String).data :=
  c5_identifier_parsing.2.2 "a-b-c-d" "a" "b" "c" "d" (by rfl)

/-- C10: parsing succeeds exactly on inputs with at least three hyphens,
and on `a-b-c-d` with hyphen-free `a`, `b`, `d` (the number part `c` may
itself contain hyphens) it returns exactly those four segments —
so extra hyphens go into the number segment and an empty rarity
segment is accepted. -/
theorem c10_identifier_parsing_characterization :
    (∀ s : String, (∃ r, parseCardIdentifier s = .ok r) ↔
      3 ≤ s.data.count '-') ∧
    (∀ a b c d : List Char, '-' ∉ a → '-' ∉ b → '-' ∉ d →
      parseCardIdentifier ⟨a ++ '-' :: (b ++ '-' :: (c ++ '-' :: d))⟩ =
        .ok (⟨a⟩, ⟨b⟩, ⟨c⟩, ⟨d⟩)) := by
  constructor
  · intro s
    constructor
    · rintro ⟨r, hr⟩
      exact parseIdParts_ok_count hr
    · intro hcount
      exact parseIdParts_count_ok hcount
  · intro a b c d ha hb hd
    exact parseIdParts_complete c ha hb hd

/-- Witness for C10: a hyphen inside the number segment and an empty
rarity segment parse as characterized. -/
theorem c10_identifier_parsing_witness :
    parseCardIdentifier
        ⟨['x'] ++ '-' :: (['y'] ++ '-' :: (['z', '-', 'w'] ++ '-' :: []))⟩ =
      .ok (⟨['x']⟩, ⟨['y']⟩, ⟨['z', '-', 'w']⟩, ⟨[]⟩) :=
  c10_identifier_parsing_characterization.2 ['x'] ['y'] ['z', '-', 'w'] []
    (by decide) (by decide) (by decide)

/-- C8: an unmapped rarity code resolves to `Regular` — in the cache
lookup, in the `get_by_code` endpoint and in the printing written during
card creation — and an unmapped name or group-name variant
canonicalizes to itself. -/
theorem c8_lookup_defaults :
    (∀ (cache : List (String × RarityType)) (code : String),
      cache.find? (fun r => r.1 = code) = none →
        rarityLookup cache code = .Regular ∧
        raritiesGetByCode cache code = .Regular) ∧
    (∀ (cache : List (String × String)) (s : String),
      cache.find? (fun r => r.1 = s) = none → canonicalLookup cache s = s) ∧
    (∀ (rc : List (String × RarityType)) (nvc gvc : List (String × String))
      (c : CreateCard) (db : Db) (cardId : Nat) (db' : Db),
      rc.find? (fun r => r.1 = c.rarityCode) = none →
      createFullCardWithTx rc nvc gvc c db = .ok (cardId, db') →
      db'.printings = db.printings ++
        [⟨db.nextPrintingId, cardId, c.rarityCode, .Regular, c.imageUrl⟩]) := by
  refine ⟨?_, ?_, ?_⟩
  · intro cache code hnone
    constructor <;> simp [rarityLookup, raritiesGetByCode, hnone]
  · intro cache s hnone
    simp [canonicalLookup, hnone]
  · intro rc nvc gvc c db cardId db' hnone hok
    have hshape := (createFullCardWithTx_ok_shape hok).2.1
    rwa [show rarityLookup rc c.rarityCode = .Regular from by
      simp [rarityLookup, hnone]] at hshape

/-- Witness for C8 on an empty cache and a concrete creation. -/
theorem c8_lookup_defaults_witness :
    (rarityLookup [] "SEC" = .Regular ∧
      raritiesGetByCode [] "SEC" = .Regular) ∧
    canonicalLookup [] "Kanon" = "Kanon" ∧
    energyDb.printings = Db.empty.printings ++
      [⟨1, 1, "SEC", .Regular, none⟩] :=
  ⟨c8_lookup_defaults.1 [] "SEC" (by rfl),
    c8_lookup_defaults.2.1 [] "Kanon" (by rfl),
    c8_lookup_defaults.2.2 [] [] [] energyPayload Db.empty 1 energyDb
      (by rfl) (by rfl)⟩

/-- C6 counterexample: another writer already put `"R"` into storage,
so the cache check passes and the storage insert hits the uniqueness
constraint.  The handler returns a 409 Conflict and does not mutate the
cache — but it performs no cache reload either, so the cache (empty) is
left inconsistent with what storage actually persisted. -/
theorem c6_counterexample :
    raritiesAdd [] [("R", .Regular)] ⟨"R", .Parallel⟩ =
      (.error (409, rarityExistsMsg "R"), [], [("R", .Regular)]) ∧
    (raritiesAdd [] [("R", .Regular)] ⟨"R", .Parallel⟩).2.1 ≠
      loadCache (raritiesAdd [] [("R", .Regular)] ⟨"R", .Parallel⟩).2.2 :=
  ⟨by rfl, by decide⟩

/-- C6 (amended): a cache-layer upsert losing the race against the
storage uniqueness constraint surfaces a 409 Conflict naming the key and
mutates neither the cache nor storage; the cache is not reloaded after
the failure, so it may stay missing entries storage holds.  On success
both cache and storage gain the entry. -/
theorem c6_upsert_conflict :
    (∀ (cache storage : List (String × RarityType)) (p : CreateRarity),
      ((cache.find? (fun r => r.1 = p.rarityCode)).isSome ∨
        (storage.find? (fun r => r.1 = p.rarityCode)).isSome →
        raritiesAdd cache storage p =
          (.error (409, rarityExistsMsg p.rarityCode), cache, storage)) ∧
      (¬ (cache.find? (fun r => r.1 = p.rarityCode)).isSome ∧
        ¬ (storage.find? (fun r => r.1 = p.rarityCode)).isSome →
        raritiesAdd cache storage p =
          (.ok 201, cache ++ [(p.rarityCode, p.rarityType)],
            storage ++ [(p.rarityCode, p.rarityType)]))) ∧
    (∀ (cache storage : List (String × String)) (v cn : String),
      ((cache.find? (fun r => r.1 = v)).isSome ∨
        (storage.find? (fun r => r.1 = v)).isSome →
        nameVariantsAdd cache storage v cn =
          (.error (409, nameVariantExistsMsg v), cache, storage)) ∧
      (¬ (cache.find? (fun r => r.1 = v)).isSome ∧
        ¬ (storage.find? (fun r => r.1 = v)).isSome →
        nameVariantsAdd cache storage v cn =
          (.ok 201, cache ++ [(v, cn)], storage ++ [(v, cn)]))) ∧
    (∀ (cache storage : List (String × String)) (v cn : String),
      ((cache.find? (fun r => r.1 = v)).isSome ∨
        (storage.find? (fun r => r.1 = v)).isSome →
        groupVariantsAdd cache storage v cn =
          (.error (409, groupVariantExistsMsg v), cache, storage)) ∧
      (¬ (cache.find? (fun r => r.1 = v)).isSome ∧
        ¬ (storage.find? (fun r => r.1 = v)).isSome →
        groupVariantsAdd cache storage v cn =
          (.ok 201, cache ++ [(v, cn)], storage ++ [(v, cn)]))) := by
  refine ⟨fun cache storage p => ⟨?_, ?_⟩,
    fun cache storage v cn => ⟨?_, ?_⟩,
    fun cache storage v cn => ⟨?_, ?_⟩⟩
  · rintro (hc | hs)
    · simp [raritiesAdd, hc]
    · by_cases hc2 : (cache.find? (fun r => r.1 = p.rarityCode)).isSome
      · simp [raritiesAdd, hc2]
      · simp [raritiesAdd, hc2, hs]
  · rintro ⟨hc, hs⟩
    simp [raritiesAdd, hc, hs]
  · rintro (hc | hs)
    · simp [nameVariantsAdd, hc]
    · by_cases hc2 : (cache.find? (fun r => r.1 = v)).isSome
      · simp [nameVariantsAdd, hc2]
      · simp [nameVariantsAdd, hc2, hs]
  · rintro ⟨hc, hs⟩
    simp [nameVariantsAdd, hc, hs]
  · rintro (hc | hs)
    · simp [groupVariantsAdd, hc]
    · by_cases hc2 : (cache.find? (fun r => r.1 = v)).isSome
      · simp [groupVariantsAdd, hc2]
      · simp [groupVariantsAdd, hc2, hs]
  · rintro ⟨hc, hs⟩
    simp [groupVariantsAdd, hc, hs]

/-- Witness for C6 (amended): conflict and success at concrete inputs. -/
theorem c6_upsert_conflict_witness :
    raritiesAdd [] [("R", .Regular)] ⟨"R", .Parallel⟩ =
      (.error (409, rarityExistsMsg "R"), [], [("R", .Regular)]) ∧
    nameVariantsAdd [] [] "A" "B" = (.ok 201, [("A", "B")], [("A", "B")]) :=
  ⟨(c6_upsert_conflict.1 [] [("R", .Regular)] ⟨"R", .Parallel⟩).1
      (Or.inr (by decide)),
    (c6_upsert_conflict.2.1 [] [] "A" "B").2 (by decide)⟩

/-- C7 counterexample: the base Card row with id 1 exists in
`orphanSetDb`, yet the fan-out read of the set name fails with the very
same `RowNotFound` produced for the genuinely missing card id 2, and the
handler answers 404 "Card not found" for the existing card — the
missing-base-card error is not distinct from this fan-out failure. -/
theorem c7_counterexample :
    (orphanSetDb.cards.find? (fun r => r.id = 1)).isSome = true ∧
    fetchFullCard orphanSetDb 1 = .error .rowNotFound ∧
    (orphanSetDb.cards.find? (fun r => r.id = 2)).isSome = false ∧
    fetchFullCard orphanSetDb 2 = .error .rowNotFound ∧
    getCardById orphanSetDb 1 = .error (404, cardNotFoundMsg) :=
  ⟨by rfl, by rfl, by rfl, by rfl, by rfl⟩

/-- C7 (amended): a missing base Card row makes `fetch_full_card` return
`RowNotFound`, which the handler maps to a 404 distinct from other
(non-`RowNotFound`) failures; every fan-out read failure is propagated
and an aggregate is returned only when every read succeeded — but a
missing name or set row produces the same `RowNotFound` as a missing
base card, so the two are not distinguishable. -/
theorem c7_fetch_errors :
    (∀ (db : Db) (cardId : Nat),
      db.cards.find? (fun r => r.id = cardId) = none →
      fetchFullCard db cardId = .error .rowNotFound ∧
      getCardById db cardId = .error (404, cardNotFoundMsg)) ∧
    (∀ (db : Db) (cardId : Nat) (card : Card) (e : SqlxError),
      db.cards.find? (fun r => r.id = cardId) = some card →
      fetchNameForCard db card.nameId = .error e →
      fetchFullCard db cardId = .error e) ∧
    (∀ (db : Db) (cardId : Nat) (card : Card) (nm : String) (e : SqlxError),
      db.cards.find? (fun r => r.id = cardId) = some card →
      fetchNameForCard db card.nameId = .ok nm →
      fetchSetName db card.setCode = .error e →
      fetchFullCard db cardId = .error e) ∧
    (∀ (db : Db) (cardId : Nat) (fc : FullCard),
      fetchFullCard db cardId = .ok fc →
      ∃ card nm sn, db.cards.find? (fun r => r.id = cardId) = some card ∧
        fetchNameForCard db card.nameId = .ok nm ∧
        fetchSetName db card.setCode = .ok sn ∧
        fc = ⟨⟨card.id, card.seriesCode, card.setCode, card.numberInSet,
            nm, card.cardType⟩, sn,
          fetchGroupsForCard db cardId, fetchUnitsForCard db cardId,
          fetchSkillsForCard db cardId, fetchHeartsForCard db cardId,
          fetchPrintingsForCard db cardId,
          fetchTypeSpecifics db cardId card.cardType⟩) := by
  refine ⟨?_, ?_, ?_, ?_⟩
  · intro db cardId hnone
    constructor
    · unfold fetchFullCard
      rw [hnone]
    · unfold getCardById fetchFullCard
      rw [hnone]
  · intro db cardId card e hcard hname
    unfold fetchFullCard
    simp only [hcard, hname]
  · intro db cardId card nm e hcard hname hset
    unfold fetchFullCard
    simp only [hcard, hname, hset]
  · intro db cardId fc h
    unfold fetchFullCard at h
    cases hcard : db.cards.find? (fun r => r.id = cardId) with
    | none => simp [hcard] at h
    | some card =>
      simp only [hcard] at h
      cases hname : fetchNameForCard db card.nameId with
      | error e => simp [hname] at h
      | ok nm =>
        simp only [hname] at h
        cases hset : fetchSetName db card.setCode with
        | error e => simp [hset] at h
        | ok sn =>
          simp only [hset, Except.ok.injEq] at h
          exact ⟨card, nm, sn, rfl, hname, hset, h.symm⟩

/-- Witness for C7 (amended) on concrete databases. -/
theorem c7_fetch_errors_witness :
    (fetchFullCard Db.empty 1 = .error .rowNotFound ∧
      getCardById Db.empty 1 = .error (404, cardNotFoundMsg)) ∧
    fetchFullCard orphanSetDb 1 = .error .rowNotFound :=
  ⟨c7_fetch_errors.1 Db.empty 1 (by rfl),
    c7_fetch_errors.2.2.1 orphanSetDb 1 ⟨1, "PL!SP", "bp9", "001", 1, .Energy⟩
      "Kanon" .rowNotFound (by rfl) (by rfl) (by rfl)⟩

/-- C9 counterexample: the deserializer accepts a Character payload with
heart count `-1` (it only checks that `hearts` is non-empty) and the
unit of work inserts the negative count into `card_hearts` unchanged. -/
theorem c9_counterexample :
    deserializeCreateCard negHeartsHelper = .ok negHeartsPayload ∧
    createFullCardWithTx [] [] [] negHeartsPayload Db.empty =
      .ok (1, negHeartsDb) ∧
    ∃ r ∈ negHeartsDb.cardHearts, r.count < 0 :=
  ⟨by rfl, by rfl, by decide⟩

/-- C9 (amended): the creation stores each payload heart count verbatim
with no sign check, so the stored counts are non-negative exactly when
the payload's counts are. -/
theorem c9_hearts_stored_verbatim :
    ∀ (rc : List (String × RarityType)) (nvc gvc : List (String × String))
      (c : CreateCard) (db : Db) (cardId : Nat) (db' : Db),
      createFullCardWithTx rc nvc gvc c db = .ok (cardId, db') →
      db'.cardHearts = db.cardHearts ++
        (heartsOf c.typeSpecifics).map (fun p => ⟨cardId, p.1, p.2⟩) ∧
      ((∀ p ∈ heartsOf c.typeSpecifics, 0 ≤ p.2) →
        ∀ r ∈ db'.cardHearts, r ∉ db.cardHearts → 0 ≤ r.count) := by
  intro rc nvc gvc c db cardId db' h
  have hsh := (createFullCardWithTx_ok_shape h).2.2
  refine ⟨hsh, fun hpos r hr hnot => ?_⟩
  rw [hsh] at hr
  rcases List.mem_append.mp hr with hr | hr
  · exact absurd hr hnot
  · obtain ⟨p, hp, hpe⟩ := List.mem_map.mp hr
    subst hpe
    exact hpos p hp

/-- Witness for C9 (amended) at a concrete creation. -/
theorem c9_hearts_stored_verbatim_witness :
    posHeartsDb.cardHearts = Db.empty.cardHearts ++
      (heartsOf posHeartsPayload.typeSpecifics).map
        (fun p => ⟨1, p.1, p.2⟩) ∧
    ((∀ p ∈ heartsOf posHeartsPayload.typeSpecifics, 0 ≤ p.2) →
      ∀ r ∈ posHeartsDb.cardHearts, r ∉ Db.empty.cardHearts →
        0 ≤ r.count) :=
  c9_hearts_stored_verbatim [] [] [] posHeartsPayload Db.empty 1 posHeartsDb
    (by rfl)

/-- C3: for payloads with a well-formed identifier, deserialization
succeeds exactly when `card_type` is consistent with `type_specifics`
(Character specifics with non-empty hearts for Character, Live specifics
with non-empty hearts for Live, no specifics for Energy); a Character or
Live payload with empty hearts is rejected with the hearts-requirement
ValidationError and an Energy payload with specifics present with the
mismatch ValidationError — in both cases before any storage write, the
database is returned unchanged. -/
theorem c3_type_specifics_validation :
    (∀ h : Helper, (∃ r, parseCardIdentifier h.cardIdentifier = .ok r) →
      ((∃ c, deserializeCreateCard h = .ok c) ↔
        specificsConsistent h.cardType h.typeSpecifics = true)) ∧
    (∀ (h : Helper) (rc : List (String × RarityType))
      (nvc gvc : List (String × String)) (commitOk : Bool) (db : Db),
      (∃ r, parseCardIdentifier h.cardIdentifier = .ok r) →
      ((h.cardType = .Character ∧ ∃ ch, h.typeSpecifics =
          some (.Character ch) ∧ ch.hearts.isEmpty = true) ∨
        (h.cardType = .Live ∧ ∃ l, h.typeSpecifics =
          some (.Live l) ∧ l.hearts.isEmpty = true)) →
      handleCreateCard rc nvc gvc h commitOk db =
        (.error (.validation heartsRequiredMsg), db)) ∧
    (∀ (h : Helper) (rc : List (String × RarityType))
      (nvc gvc : List (String × String)) (commitOk : Bool) (db : Db)
      (s : CreateCardTypeSpecifics),
      (∃ r, parseCardIdentifier h.cardIdentifier = .ok r) →
      h.cardType = .Energy → h.typeSpecifics = some s →
      handleCreateCard rc nvc gvc h commitOk db =
        (.error (.validation specificsMismatchMsg), db)) := by
  refine ⟨?_, ?_, ?_⟩
  · rintro h ⟨⟨a, b, cc, dd⟩, hr⟩
    unfold deserializeCreateCard
    simp only [hr]
    cases hct : h.cardType with
    | Character =>
      rcases hts : h.typeSpecifics with - | s
      · simp [specificsConsistent]
      · cases s with
        | Character ch =>
          by_cases che : ch.hearts.isEmpty <;>
            simp [specificsConsistent, che]
        | Live l => simp [specificsConsistent]
    | Live =>
      rcases hts : h.typeSpecifics with - | s
      · simp [specificsConsistent]
      · cases s with
        | Character ch => simp [specificsConsistent]
        | Live l =>
          by_cases che : l.hearts.isEmpty <;>
            simp [specificsConsistent, che]
    | Energy =>
      rcases hts : h.typeSpecifics with - | s
      · simp [specificsConsistent]
      · cases s <;> simp [specificsConsistent]
  · rintro h rc nvc gvc commitOk db ⟨⟨a, b, cc, dd⟩, hr⟩ hcase
    have hdes : deserializeCreateCard h = .error heartsRequiredMsg := by
      unfold deserializeCreateCard
      simp only [hr]
      rcases hcase with ⟨hct, ch, hts, che⟩ | ⟨hct, l, hts, che⟩ <;>
        simp [hct, hts, che]
    unfold handleCreateCard
    simp only [hdes]
  · rintro h rc nvc gvc commitOk db s ⟨⟨a, b, cc, dd⟩, hr⟩ hct hts
    have hdes : deserializeCreateCard h = .error specificsMismatchMsg := by
      unfold deserializeCreateCard
      simp only [hr, hct, hts]
    unfold handleCreateCard
    simp only [hdes]

/-- Witness for C3: scenario B (Live card with empty hearts) and
scenario C (Energy card with specifics present) at concrete payloads. -/
theorem c3_type_specifics_validation_witness :
    handleCreateCard [] [] []
        ⟨"PL!SP-bp1-023-L", "L", .Live, [], [], [], none,
          some (.Live ⟨1, [], none, none⟩)⟩ true Db.empty =
      (.error (.validation heartsRequiredMsg), Db.empty) ∧
    handleCreateCard [] [] []
        ⟨"PL!SP-bp1-031-PE", "E", .Energy, [], [], [], none,
          some (.Character ⟨1, 1, [(.Red, 1)], none⟩)⟩ true Db.empty =
      (.error (.validation specificsMismatchMsg), Db.empty) ∧
    (∃ c, deserializeCreateCard
        ⟨"PL!SP-bp1-001-R", "K", .Character, [], [], [], none,
          some (.Character ⟨9, 3, [(.Red, 1)], none⟩)⟩ = .ok c) :=
  ⟨c3_type_specifics_validation.2.1
      ⟨"PL!SP-bp1-023-L", "L", .Live, [], [], [], none,
        some (.Live ⟨1, [], none, none⟩)⟩ [] [] [] true Db.empty
      ⟨("PL!SP", "bp1", "023", "L"), by rfl⟩
      (Or.inr ⟨rfl, ⟨1, [], none, none⟩, rfl, rfl⟩),
    c3_type_specifics_validation.2.2
      ⟨"PL!SP-bp1-031-PE", "E", .Energy, [], [], [], none,
        some (.Character ⟨1, 1, [(.Red, 1)], none⟩)⟩ [] [] [] true Db.empty
      (.Character ⟨1, 1, [(.Red, 1)], none⟩)
      ⟨("PL!SP", "bp1", "031", "PE"), by rfl⟩ rfl rfl,
    (c3_type_specifics_validation.1
      ⟨"PL!SP-bp1-001-R", "K", .Character, [], [], [], none,
        some (.Character ⟨9, 3, [(.Red, 1)], none⟩)⟩
      ⟨("PL!SP", "bp1", "001", "R"), by rfl⟩).mpr (by rfl)⟩

/-- C1: when a payload references a group or unit with no pre-existing
row, `create_full_card` fails with the not-found error naming the
canonicalized group name (or the unit name), the transaction rolls back
leaving the database unchanged, and no card, specifics, printing, heart
or association row exists for the attempted card id; fetching that id
fails with row-not-found. -/
theorem c1_rollback_on_missing_reference :
    ∀ (rc : List (String × RarityType)) (nvc gvc : List (String × String))
      (c : CreateCard) (commitOk : Bool) (db : Db),
      db.wf →
      ((∃ g ∈ c.groups, groupIdOf db (canonicalLookup gvc g) = none) ∨
        (∃ u ∈ c.units, unitIdOf db u = none)) →
      ∃ e, createFullCard rc nvc gvc c commitOk db = (.error e, db) ∧
        ((∃ g ∈ c.groups, e = DbError.groupNotFound (canonicalLookup gvc g) ∧
            groupIdOf db (canonicalLookup gvc g) = none) ∨
          (∃ u ∈ c.units, e = DbError.unitNotFound u ∧
            unitIdOf db u = none)) ∧
        noRowsFor db db.nextCardId ∧
        fetchFullCard db db.nextCardId = .error .rowNotFound := by
  intro rc nvc gvc c commitOk db hwf hfail
  obtain ⟨e, herr, hcase⟩ :=
    createFullCardWithTx_fails rc nvc hfail
  refine ⟨e, ?_, hcase, wf_noRowsFor_next hwf, ?_⟩
  · simp only [createFullCard, herr]
  · have hnone : db.cards.find? (fun r => r.id = db.nextCardId) = none :=
      find?_of_forall_not (fun x hx => by
        simp only [decide_eq_true_eq]
        exact (wf_noRowsFor_next hwf).1 x hx)
    unfold fetchFullCard
    rw [hnone]

/-- Witness for C1: scenario D on the empty database. -/
theorem c1_rollback_on_missing_reference_witness :
    ∃ e, createFullCard [] [] [] missingGroupPayload true Db.empty =
        (.error e, Db.empty) ∧
      ((∃ g ∈ missingGroupPayload.groups,
          e = DbError.groupNotFound (canonicalLookup [] g) ∧
          groupIdOf Db.empty (canonicalLookup [] g) = none) ∨
        (∃ u ∈ missingGroupPayload.units,
          e = DbError.unitNotFound u ∧ unitIdOf Db.empty u = none)) ∧
      noRowsFor Db.empty Db.empty.nextCardId ∧
      fetchFullCard Db.empty Db.empty.nextCardId = .error .rowNotFound :=
  c1_rollback_on_missing_reference [] [] [] missingGroupPayload true Db.empty
    (by decide)
    (Or.inl ⟨"Nonexistent Group", by simp [missingGroupPayload], by rfl⟩)

/-- The bulk loop allocates one id per payload. -/
theorem createBulkWithTx_length {rc : List (String × RarityType)}
    {nvc gvc : List (String × String)} {cs : List CreateCard} {db : Db}
    {ids : List Nat} {db' : Db}
    (h : createBulkWithTx rc nvc gvc cs db = .ok (ids, db')) :
    ids.length = cs.length := by
  induction cs generalizing db ids db' with
  | nil =>
    simp only [createBulkWithTx, Except.ok.injEq, Prod.mk.injEq] at h
    obtain ⟨h1, -⟩ := h
    subst h1
    rfl
  | cons c rest ih =>
    rw [createBulkWithTx] at h
    cases h1 : createFullCardWithTx rc nvc gvc c db with
    | error e => simp [h1] at h
    | ok p =>
      obtain ⟨cardId, db1⟩ := p
      simp only [h1] at h
      cases h2 : createBulkWithTx rc nvc gvc rest db1 with
      | error e => simp [h2] at h
      | ok q =>
        obtain ⟨ids1, db2⟩ := q
        simp only [h2, Except.ok.injEq, Prod.mk.injEq] at h
        obtain ⟨hids, hdb2⟩ := h
        subst hdb2
        rw [← hids]
        simp [ih h2]

/-- The post-commit fetch loop returns one aggregate per id, in order. -/
theorem fetchFullCards_spec {db : Db} {ids : List Nat} {l : List FullCard}
    (h : fetchFullCards db ids = .ok l) :
    l.length = ids.length ∧
    ∀ i (hi : i < ids.length) (hl : i < l.length),
      fetchFullCard db (ids.get ⟨i, hi⟩) = .ok (l.get ⟨i, hl⟩) := by
  induction ids generalizing l with
  | nil =>
    simp only [fetchFullCards, Except.ok.injEq] at h
    subst h
    exact ⟨rfl, fun i hi => by cases hi⟩
  | cons cardId rest ih =>
    rw [fetchFullCards] at h
    cases h1 : fetchFullCard db cardId with
    | error e => simp [h1] at h
    | ok fc =>
      simp only [h1] at h
      cases h2 : fetchFullCards db rest with
      | error e => simp [h2] at h
      | ok l1 =>
        simp only [h2, Except.ok.injEq] at h
        subst h
        obtain ⟨hlen, hget⟩ := ih h2
        refine ⟨by simp [hlen], fun i hi hl => ?_⟩
        cases i with
        | zero => simpa using h1
        | succ j =>
          have hj : j < rest.length := by simpa using hi
          have hj' : j < l1.length := by simpa using hl
          simpa using hget j hj hj'

/-- C4: the bulk endpoint runs every payload inside the one shared
transaction; the first failing payload (validation or unit of work)
aborts the whole batch with the database unchanged, a commit failure is
propagated with the database unchanged, and on success it commits once
and returns one fetched `FullCard` per created id, in payload order. -/
theorem c4_bulk_atomicity :
    (∀ (rc : List (String × RarityType)) (nvc gvc : List (String × String))
      (cs : List CreateCard) (db : Db) (e : DbError) (commitOk : Bool),
      createBulkWithTx rc nvc gvc cs db = .error e →
      createBulkCards rc nvc gvc cs commitOk db = (.error e, db)) ∧
    (∀ (rc : List (String × RarityType)) (nvc gvc : List (String × String))
      (cs : List CreateCard) (db : Db) (ids : List Nat) (db' : Db),
      createBulkWithTx rc nvc gvc cs db = .ok (ids, db') →
      createBulkCards rc nvc gvc cs false db =
        (.error (.sqlx .other), db)) ∧
    (∀ (rc : List (String × RarityType)) (nvc gvc : List (String × String))
      (cs : List CreateCard) (db : Db) (ids : List Nat) (db' : Db),
      createBulkWithTx rc nvc gvc cs db = .ok (ids, db') →
      ids.length = cs.length ∧
      createBulkCards rc nvc gvc cs true db =
        (match fetchFullCards db' ids with
          | .ok l => (.ok l, db')
          | .error e => (.error (.sqlx e), db'))) ∧
    (∀ (db : Db) (ids : List Nat) (l : List FullCard),
      fetchFullCards db ids = .ok l →
      l.length = ids.length ∧
      ∀ i (hi : i < ids.length) (hl : i < l.length),
        fetchFullCard db (ids.get ⟨i, hi⟩) = .ok (l.get ⟨i, hl⟩)) ∧
    (∀ (rc : List (String × RarityType)) (nvc gvc : List (String × String))
      (hs : List Helper) (db : Db) (commitOk : Bool) (m : String),
      deserializeAll hs = .error m →
      handleCreateBulk rc nvc gvc hs commitOk db =
        (.error (.validation m), db)) := by
  refine ⟨?_, ?_, ?_, ?_, ?_⟩
  · intro rc nvc gvc cs db e commitOk h
    simp only [createBulkCards, h]
  · intro rc nvc gvc cs db ids db' h
    simp only [createBulkCards, h]
    rfl
  · intro rc nvc gvc cs db ids db' h
    refine ⟨createBulkWithTx_length h, ?_⟩
    simp only [createBulkCards, h]
    rfl
  · intro db ids l h
    exact fetchFullCards_spec h
  · intro rc nvc gvc hs db commitOk m h
    simp only [handleCreateBulk, h]

/-- Witness for C4: a failing batch rolls back on the empty database,
a successful singleton batch returns its fetch result, and a batch with
a malformed identifier is rejected at deserialization. -/
theorem c4_bulk_atomicity_witness :
    createBulkCards [] [] [] [missingGroupPayload] true Db.empty =
      (.error (DbError.groupNotFound "Nonexistent Group"), Db.empty) ∧
    ((1 : Nat) :: []).length = ([energyPayload].length) ∧
    handleCreateBulk [] [] []
        [⟨"PL!S-bp2-001", "K", .Energy, [], [], [], none, none⟩] true
        Db.empty =
      (.error (.validation identifierFormatMsg), Db.empty) :=
  ⟨c4_bulk_atomicity.1 [] [] [] [missingGroupPayload] Db.empty
      (DbError.groupNotFound "Nonexistent Group") true (by rfl),
    (c4_bulk_atomicity.2.2.1 [] [] [] [energyPayload] Db.empty
      ((1 : Nat) :: []) energyDb (by rfl)).1,
    c4_bulk_atomicity.2.2.2.2 [] [] []
      [⟨"PL!S-bp2-001", "K", .Energy, [], [], [], none, none⟩] Db.empty true
      identifierFormatMsg (by rfl)⟩

/-- Reading the freshly inserted group links back through the join
recovers the canonicalized group names, in order. -/
theorem groups_readback (db : Db) (hnd : (db.groups.map Prod.fst).Nodup)
    (gvc : List (String × String)) (cardId : Nat) :
    ∀ gs : List String,
      (∀ g ∈ gs, (groupIdOf db (canonicalLookup gvc g)).isSome) →
      (gs.map (fun g =>
          (cardId, (groupIdOf db (canonicalLookup gvc g)).getD 0))).filterMap
        (fun r => (db.groups.find? (fun x => x.1 = r.2)).map (fun x => x.2)) =
        gs.map (canonicalLookup gvc) := by
  intro gs hall
  induction gs with
  | nil => rfl
  | cons g rest ih =>
    have hg := hall g (List.mem_cons_self g rest)
    cases hgid : groupIdOf db (canonicalLookup gvc g) with
    | none => rw [hgid] at hg; cases hg
    | some gid =>
      unfold groupIdOf at hgid
      obtain ⟨row, hrow, hrow1⟩ := Option.map_eq_some'.mp hgid
      have hrowmem : row ∈ db.groups := List.mem_of_find?_eq_some hrow
      have hrow2 : row.2 = canonicalLookup gvc g := by
        simpa using List.find?_some hrow
      have hfind : db.groups.find? (fun x => x.1 = gid) = some row :=
        find?_key_nodup Prod.fst hnd hrowmem hrow1
      simp only [List.map_cons, List.filterMap_cons]
      rw [show groupIdOf db (canonicalLookup gvc g) = some gid from by
        unfold groupIdOf; rw [hrow]; simpa using hrow1]
      simp only [Option.getD_some, hfind, Option.map_some']
      rw [hrow2, ih (fun g' hm => hall g' (List.mem_cons_of_mem _ hm))]

/-- Reading the freshly inserted unit links back through the join
recovers the unit names, in order. -/
theorem units_readback (db : Db) (hnd : (db.units.map Prod.fst).Nodup)
    (cardId : Nat) :
    ∀ us : List String, (∀ u ∈ us, (unitIdOf db u).isSome) →
      (us.map (fun u => (cardId, (unitIdOf db u).getD 0))).filterMap
        (fun r => (db.units.find? (fun x => x.1 = r.2)).map (fun x => x.2)) =
        us := by
  intro us hall
  induction us with
  | nil => rfl
  | cons u rest ih =>
    have hu := hall u (List.mem_cons_self u rest)
    cases huid : unitIdOf db u with
    | none => rw [huid] at hu; cases hu
    | some uid =>
      unfold unitIdOf at huid
      obtain ⟨row, hrow, hrow1⟩ := Option.map_eq_some'.mp huid
      have hrowmem : row ∈ db.units := List.mem_of_find?_eq_some hrow
      have hrow2 : row.2 = u := by
        simpa using List.find?_some hrow
      have hfind : db.units.find? (fun x => x.1 = uid) = some row :=
        find?_key_nodup Prod.fst hnd hrowmem hrow1
      simp only [List.map_cons, List.filterMap_cons]
      rw [show unitIdOf db u = some uid from by
        unfold unitIdOf; rw [hrow]; simpa using hrow1]
      simp only [Option.getD_some, hfind, Option.map_some']
      rw [hrow2, ih (fun u' hm => hall u' (List.mem_cons_of_mem _ hm))]

/-- Projecting the freshly inserted heart rows back to color/count pairs
recovers the payload hearts. -/
theorem hearts_roundtrip (cardId : Nat) (hs : List (HeartColor × Int)) :
    ((hs.map (fun p => (⟨cardId, p.1, p.2⟩ : CardHeart))).map
      (fun r => (r.color, r.count))) = hs := by
  induction hs with
  | nil => rfl
  | cons p rest ih => simp [ih]

/-- C2: for a consistent creation payload whose referenced groups, units
and set exist, `create` followed by `fetch` on the returned id succeeds
and yields an aggregate whose series/set/number, card type, units,
skills, hearts, image and printing rarity fields equal the payload's,
with the name and each group entry in canonical form (the input itself
when unmapped — `canonicalLookup` defaults to the input). -/
theorem c2_create_fetch_round_trip :
    ∀ (rc : List (String × RarityType)) (nvc gvc : List (String × String))
      (c : CreateCard) (db : Db),
      db.wf →
      specificsConsistent c.cardType c.typeSpecifics = true →
      (∀ g ∈ c.groups, (groupIdOf db (canonicalLookup gvc g)).isSome) →
      (∀ u ∈ c.units, (unitIdOf db u).isSome) →
      (db.sets.find? (fun r => r.1 = c.setCode)).isSome →
      ∃ fc db', createFullCard rc nvc gvc c true db = (.ok fc, db') ∧
        fc.base.seriesCode = c.seriesCode ∧
        fc.base.setCode = c.setCode ∧
        fc.base.numberInSet = c.numberInSet ∧
        fc.base.cardType = c.cardType ∧
        fc.base.name = canonicalLookup nvc c.name ∧
        fc.groups = c.groups.map (canonicalLookup gvc) ∧
        fc.units = c.units ∧
        fc.skills = c.skills ∧
        fc.hearts = heartsOf c.typeSpecifics ∧
        fc.printings.map (fun p => (p.rarityCode, p.rarityType, p.imageUrl)) =
          [(c.rarityCode, rarityLookup rc c.rarityCode, c.imageUrl)] ∧
        specificsMatch fc.typeSpecifics c.typeSpecifics := by
  intro rc nvc gvc c db hwf hcons hg hu hset
  obtain ⟨w1, w2, w3, w4, w5, w6, w7, w8, w9, w10, w11, w12, w13, w14, w15⟩ :=
    hwf
  obtain ⟨nidA, hnidA, hnback⟩ :=
    upsertName_lookup (canonicalLookup nvc c.name) w1 w2
  obtain ⟨nid, hnid, hrun⟩ := createFullCardWithTx_run rc nvc gvc c db
  have hEqN : nidA = nid := by
    have h0 := hnid.symm.trans hnidA
    simpa using h0.symm
  subst hEqN
  set db1 := upsertName db (canonicalLookup nvc c.name) with hdb1
  set D := stageInserts rc c nidA db.nextCardId db1 with hD
  have hDgroups : D.groups = db.groups := by rw [hD, hdb1]; simp
  have hDunits : D.units = db.units := by rw [hD, hdb1]; simp
  have hallG : ∀ g ∈ c.groups,
      (groupIdOf D (canonicalLookup gvc g)).isSome := by
    intro g hgm
    rw [groupIdOf_congr hDgroups]
    exact hg g hgm
  simp only [linkGroups_eq gvc db.nextCardId hallG] at hrun
  set E : Db := { D with cardGroups := (D.cardGroups ++
    c.groups.map (fun g => (db.nextCardId,
      (groupIdOf D (canonicalLookup gvc g)).getD 0))) } with hE
  have hEunits : E.units = db.units := hDunits
  have hallU : ∀ u ∈ c.units, (unitIdOf E u).isSome := by
    intro u hm
    rw [unitIdOf_congr hEunits]
    exact hu u hm
  simp only [linkUnits_eq db.nextCardId hallU] at hrun
  set F : Db := { E with cardUnits := (E.cardUnits ++
    c.units.map (fun u => (db.nextCardId, (unitIdOf E u).getD 0))) } with hF
  have hFskills : F.skills = db.skills := by rw [hF, hE, hD, hdb1]; simp
  have hFnsk : F.nextSkillId = db.nextSkillId := by rw [hF, hE, hD, hdb1]; simp
  have hFcsk : F.cardSkills = db.cardSkills := by rw [hF, hE, hD, hdb1]; simp
  obtain ⟨db8, hskrun, hfetchSk⟩ := linkSkills_ok db.nextCardId c.skills
    F (by rw [hFskills, hFnsk]; exact w5)
    (by rw [hFskills]; exact w6)
    (by rw [hFcsk, hFnsk]; exact w15)
  simp only [hskrun] at hrun
  obtain ⟨sk8, cs8, nsk8, hdb8⟩ := linkSkills_shape hskrun
  -- the base card row
  have hdb8cards : db8.cards = db.cards ++
      [⟨db.nextCardId, c.seriesCode, c.setCode, c.numberInSet, nidA,
        c.cardType⟩] := by
    rw [hdb8, hF, hE, hD, hdb1]; simp
  have hfindCard : db8.cards.find? (fun r => r.id = db.nextCardId) =
      some ⟨db.nextCardId, c.seriesCode, c.setCode, c.numberInSet, nidA,
        c.cardType⟩ := by
    rw [hdb8cards, find?_append_of_none]
    · simp
    · exact find?_of_forall_not (fun x hx => by
        simp only [decide_eq_true_eq]
        exact Nat.ne_of_lt (w7 x hx))
  -- the canonical name
  have hdb8names : db8.names = db1.names := by rw [hdb8, hF, hE, hD]; simp
  have hname8 : fetchNameForCard db8 nidA =
      .ok (canonicalLookup nvc c.name) := by
    unfold fetchNameForCard
    rw [hdb8names, hnback]
  -- the set name
  have hdb8sets : db8.sets = db.sets := by rw [hdb8, hF, hE, hD, hdb1]; simp
  obtain ⟨srow, hsrow⟩ := Option.isSome_iff_exists.mp hset
  have hset8 : fetchSetName db8 c.setCode = .ok srow.2 := by
    unfold fetchSetName
    rw [hdb8sets, hsrow]
  -- groups readback
  have hmapcongr : ∀ g, groupIdOf D (canonicalLookup gvc g) =
      groupIdOf db (canonicalLookup gvc g) :=
    fun g => groupIdOf_congr hDgroups _
  have hdb8groups : db8.groups = db.groups := by rw [hdb8, hF, hE]; exact hDgroups
  have hdb8cardGroups : db8.cardGroups = db.cardGroups ++
      c.groups.map (fun g => (db.nextCardId,
        (groupIdOf db (canonicalLookup gvc g)).getD 0)) := by
    rw [hdb8, hF, hE]
    simp only [hmapcongr]
    rw [hD, hdb1]
    simp
  have hgroups8 : fetchGroupsForCard db8 db.nextCardId =
      c.groups.map (canonicalLookup gvc) := by
    unfold fetchGroupsForCard
    rw [hdb8cardGroups, hdb8groups, List.filter_append]
    have hold : db.cardGroups.filter (fun r => r.1 = db.nextCardId) = [] :=
      List.filter_eq_nil_iff.mpr (fun r hr => by
        simp only [decide_eq_true_eq]
        exact Nat.ne_of_lt (w12 r hr))
    have hnew : (c.groups.map (fun g => (db.nextCardId,
        (groupIdOf db (canonicalLookup gvc g)).getD 0))).filter
          (fun r => r.1 = db.nextCardId) =
        c.groups.map (fun g => (db.nextCardId,
          (groupIdOf db (canonicalLookup gvc g)).getD 0)) :=
      List.filter_eq_self.mpr (fun r hr => by
        obtain ⟨g, hgm, hge⟩ := List.mem_map.mp hr
        rw [← hge]
        simp)
    rw [hold, hnew, List.nil_append]
    exact groups_readback db w3 gvc db.nextCardId c.groups hg
  -- units readback
  have hdb8units : db8.units = db.units := by rw [hdb8, hF, hE]; exact hDunits
  have humapcongr : ∀ u, unitIdOf E u = unitIdOf db u :=
    fun u => unitIdOf_congr hEunits _
  have hEcardUnits : E.cardUnits = db.cardUnits := by
    rw [hE, hD, hdb1]
    simp
  have hdb8cardUnits : db8.cardUnits = db.cardUnits ++
      c.units.map (fun u => (db.nextCardId, (unitIdOf db u).getD 0)) := by
    rw [hdb8, hF]
    show E.cardUnits ++
      c.units.map (fun u => (db.nextCardId, (unitIdOf E u).getD 0)) = _
    rw [hEcardUnits]
    simp only [humapcongr]
  have hunits8 : fetchUnitsForCard db8 db.nextCardId = c.units := by
    unfold fetchUnitsForCard
    rw [hdb8cardUnits, hdb8units, List.filter_append]
    have hold : db.cardUnits.filter (fun r => r.1 = db.nextCardId) = [] :=
      List.filter_eq_nil_iff.mpr (fun r hr => by
        simp only [decide_eq_true_eq]
        exact Nat.ne_of_lt (w13 r hr))
    have hnew : (c.units.map (fun u => (db.nextCardId,
        (unitIdOf db u).getD 0))).filter (fun r => r.1 = db.nextCardId) =
        c.units.map (fun u => (db.nextCardId, (unitIdOf db u).getD 0)) :=
      List.filter_eq_self.mpr (fun r hr => by
        obtain ⟨u, hum, hue⟩ := List.mem_map.mp hr
        rw [← hue]
        simp)
    rw [hold, hnew, List.nil_append]
    exact units_readback db w4 db.nextCardId c.units hu
  -- skills readback
  have hFfetchSk : fetchSkillsForCard F db.nextCardId = [] := by
    unfold fetchSkillsForCard
    rw [hFcsk]
    have hold : db.cardSkills.filter (fun r => r.1 = db.nextCardId) = [] :=
      List.filter_eq_nil_iff.mpr (fun r hr => by
        simp only [decide_eq_true_eq]
        exact Nat.ne_of_lt (w14 r hr))
    rw [hold]
    rfl
  have hskills8 : fetchSkillsForCard db8 db.nextCardId = c.skills := by
    rw [hfetchSk, hFfetchSk, List.nil_append]
  -- hearts readback
  have hdb8hearts : db8.cardHearts = db.cardHearts ++
      (heartsOf c.typeSpecifics).map
        (fun p => ⟨db.nextCardId, p.1, p.2⟩) := by
    rw [hdb8, hF, hE, hD, hdb1]; simp
  have hhearts8 : fetchHeartsForCard db8 db.nextCardId =
      heartsOf c.typeSpecifics := by
    unfold fetchHeartsForCard
    rw [hdb8hearts, List.filter_append]
    have hold : db.cardHearts.filter (fun r => r.cardId = db.nextCardId) =
        [] :=
      List.filter_eq_nil_iff.mpr (fun r hr => by
        simp only [decide_eq_true_eq]
        exact Nat.ne_of_lt (w11 r hr))
    have hnew : ((heartsOf c.typeSpecifics).map
        (fun p => (⟨db.nextCardId, p.1, p.2⟩ : CardHeart))).filter
          (fun r => r.cardId = db.nextCardId) =
        (heartsOf c.typeSpecifics).map
          (fun p => (⟨db.nextCardId, p.1, p.2⟩ : CardHeart)) :=
      List.filter_eq_self.mpr (fun r hr => by
        obtain ⟨p, hpm, hpe⟩ := List.mem_map.mp hr
        rw [← hpe]
        simp)
    rw [hold, hnew, List.nil_append]
    exact hearts_roundtrip db.nextCardId (heartsOf c.typeSpecifics)
  -- printings readback
  have hdb8printings : db8.printings = db.printings ++
      [⟨db.nextPrintingId, db.nextCardId, c.rarityCode,
        rarityLookup rc c.rarityCode, c.imageUrl⟩] := by
    rw [hdb8, hF, hE, hD, hdb1]; simp
  have hprint8 : fetchPrintingsForCard db8 db.nextCardId =
      [⟨db.nextPrintingId, db.nextCardId, c.rarityCode,
        rarityLookup rc c.rarityCode, c.imageUrl⟩] := by
    unfold fetchPrintingsForCard
    rw [hdb8printings, List.filter_append]
    have hold : db.printings.filter (fun r => r.cardId = db.nextCardId) =
        [] :=
      List.filter_eq_nil_iff.mpr (fun r hr => by
        simp only [decide_eq_true_eq]
        exact Nat.ne_of_lt (w10 r hr))
    rw [hold]
    simp
  -- type specifics readback
  have hdb8chars : db8.characterCards = db.characterCards ++
      (match c.typeSpecifics with
        | some (.Character ch) =>
          [⟨db.nextCardId, ch.cost, ch.blades, ch.bladeHeart⟩]
        | _ => []) := by
    rw [hdb8, hF, hE, hD, hdb1]
    rw [stageInserts_characterCards]
    simp
  have hdb8lives : db8.liveCards = db.liveCards ++
      (match c.typeSpecifics with
        | some (.Live l) =>
          [⟨db.nextCardId, l.score, l.bladeHeart, l.specialHeart⟩]
        | _ => []) := by
    rw [hdb8, hF, hE, hD, hdb1]
    rw [stageInserts_liveCards]
    simp
  have hts8 : specificsMatch
      (fetchTypeSpecifics db8 db.nextCardId c.cardType) c.typeSpecifics := by
    cases hct : c.cardType with
    | Character =>
      rcases hts : c.typeSpecifics with - | s
      · rw [hct, hts] at hcons
        simp [specificsConsistent] at hcons
      · cases s with
        | Character ch =>
          have hfind : fetchTypeSpecifics db8 db.nextCardId .Character =
              some (.Character
                ⟨db.nextCardId, ch.cost, ch.blades, ch.bladeHeart⟩) := by
            unfold fetchTypeSpecifics
            simp only [hts] at hdb8chars
            rw [hdb8chars, find?_append_of_none]
            · simp
            · exact find?_of_forall_not (fun x hx => by
                simp only [decide_eq_true_eq]
                exact Nat.ne_of_lt (w8 x hx))
          rw [hfind]
          simp [specificsMatch]
        | Live l =>
          rw [hct, hts] at hcons
          simp [specificsConsistent] at hcons
    | Live =>
      rcases hts : c.typeSpecifics with - | s
      · rw [hct, hts] at hcons
        simp [specificsConsistent] at hcons
      · cases s with
        | Character ch =>
          rw [hct, hts] at hcons
          simp [specificsConsistent] at hcons
        | Live l =>
          have hfind : fetchTypeSpecifics db8 db.nextCardId .Live =
              some (.Live
                ⟨db.nextCardId, l.score, l.bladeHeart, l.specialHeart⟩) := by
            unfold fetchTypeSpecifics
            simp only [hts] at hdb8lives
            rw [hdb8lives, find?_append_of_none]
            · simp
            · exact find?_of_forall_not (fun x hx => by
                simp only [decide_eq_true_eq]
                exact Nat.ne_of_lt (w9 x hx))
          rw [hfind]
          simp [specificsMatch]
    | Energy =>
      rcases hts : c.typeSpecifics with - | s
      · simp [fetchTypeSpecifics, hts, specificsMatch]
      · rw [hct, hts] at hcons
        cases s <;> simp [specificsConsistent] at hcons
  -- assemble the fetched aggregate
  have hfetch : fetchFullCard db8 db.nextCardId = .ok
      ⟨⟨db.nextCardId, c.seriesCode, c.setCode, c.numberInSet,
          canonicalLookup nvc c.name, c.cardType⟩, srow.2,
        fetchGroupsForCard db8 db.nextCardId,
        fetchUnitsForCard db8 db.nextCardId,
        fetchSkillsForCard db8 db.nextCardId,
        fetchHeartsForCard db8 db.nextCardId,
        fetchPrintingsForCard db8 db.nextCardId,
        fetchTypeSpecifics db8 db.nextCardId c.cardType⟩ := by
    unfold fetchFullCard
    simp only [hfindCard, hname8, hset8]
  refine ⟨⟨⟨db.nextCardId, c.seriesCode, c.setCode, c.numberInSet,
      canonicalLookup nvc c.name, c.cardType⟩, srow.2,
      fetchGroupsForCard db8 db.nextCardId,
      fetchUnitsForCard db8 db.nextCardId,
      fetchSkillsForCard db8 db.nextCardId,
      fetchHeartsForCard db8 db.nextCardId,
      fetchPrintingsForCard db8 db.nextCardId,
      fetchTypeSpecifics db8 db.nextCardId c.cardType⟩, db8, ?_, rfl, rfl,
    rfl, rfl, rfl, hgroups8, hunits8, hskills8, hhearts8, ?_, hts8⟩
  · simp only [createFullCard, hrun, if_true, hfetch]
  · rw [hprint8]
    rfl

/-- Witness for C2 at a concrete creation with name and group variants. -/
theorem c2_create_fetch_round_trip_witness :
    ∃ fc db', createFullCard [] [("Kanon", "Shibuya Kanon")]
        [("LLS", "Love Live! Superstar!!")] rtPayload true rtDb =
        (.ok fc, db') ∧
      fc.base.seriesCode = rtPayload.seriesCode ∧
      fc.base.setCode = rtPayload.setCode ∧
      fc.base.numberInSet = rtPayload.numberInSet ∧
      fc.base.cardType = rtPayload.cardType ∧
      fc.base.name =
        canonicalLookup [("Kanon", "Shibuya Kanon")] rtPayload.name ∧
      fc.groups = rtPayload.groups.map
        (canonicalLookup [("LLS", "Love Live! Superstar!!")]) ∧
      fc.units = rtPayload.units ∧
      fc.skills = rtPayload.skills ∧
      fc.hearts = heartsOf rtPayload.typeSpecifics ∧
      fc.printings.map (fun p => (p.rarityCode, p.rarityType, p.imageUrl)) =
        [(rtPayload.rarityCode, rarityLookup [] rtPayload.rarityCode,
          rtPayload.imageUrl)] ∧
      specificsMatch fc.typeSpecifics rtPayload.typeSpecifics :=
  c2_create_fetch_round_trip [] [("Kanon", "Shibuya Kanon")]
    [("LLS", "Love Live! Superstar!!")] rtPayload rtDb (by decide) (by rfl)
    (by decide) (by decide) (by decide)

end LLOCG
